import Mathlib

/-!
A verification development for the call-signaling engine of the FriendsChat
server (`src/socket/socketHandler.js`).

The six module-level registries of the handler (`activeUsers`, `activeCalls`,
`callInviteSentForChannel`, `callRingTimeouts`, `endedOrRejectedChannels`,
plus the call-history store written through `CallHistory.create`) are modelled
as one explicit `ServerState`.  JavaScript `Map`s become association lists
(`mget`/`mset`/`mdel`), `Set`s become lists with membership (`sadd`/`sdel`).
Each socket event handler becomes a pure function
`ServerState → ServerState × List Ev`, where `Ev` records every
`socket.emit`/`io.to(..).emit` and every push-notification dispatch.
Times are `Nat` milliseconds.  The external user store (`User.findById`) is a
read-only association list `Db`.  String coercions: the handlers only ever
receive string ids (`String(x)` is the identity on strings), and JavaScript
falsiness of a possibly-missing string is modelled by `""` / `Option.none`.

Display-only payload fields that never influence control flow
(`callerPhone`, the sdp blob inside relayed answers) are omitted from the
emitted events; fields that do influence control flow (`fcmToken`,
`isActive`, the offer normalization, `String.prototype.trim`) are modelled
exactly.
-/

set_option linter.unusedVariables false

namespace FriendsChat

abbrev UserId := String
abbrev SocketId := String
abbrev ChannelId := String

/-- JavaScript truthiness of a possibly-absent string: `undefined` and `""`
are falsy, everything else is truthy. -/
def truthy : Option String → Bool
  | none => false
  | some s => s ≠ ""

/-- `String.prototype.trim()`: strip leading and trailing whitespace,
implemented by structural recursion on the character list so that concrete
traces are kernel-reducible. -/
def jsTrim (s : String) : String :=
  ⟨((s.data.dropWhile Char.isWhitespace).reverse.dropWhile
      Char.isWhitespace).reverse⟩

/-- JavaScript `x || d` for a possibly-absent string `x`. -/
def jsOr (x : Option String) (d : String) : String :=
  match x with
  | none => d
  | some s => if s = "" then d else s

/-- JavaScript `x || d` for a present string `x` (falsy only when empty). -/
def jsOrS (x d : String) : String :=
  if x = "" then d else x

/-- `Map.get`, on an association-list model of a JavaScript `Map`. -/
def mget {α : Type} : List (String × α) → String → Option α
  | [], _ => none
  | (k, v) :: r, x => if k = x then some v else mget r x

/-- `Map.delete`. -/
def mdel {α : Type} : List (String × α) → String → List (String × α)
  | [], _ => []
  | (k, v) :: r, x => if k = x then mdel r x else (k, v) :: mdel r x

/-- `Map.set` (replaces any previous binding; none of the properties proved
here depend on the iteration order of the map). -/
def mset {α : Type} (l : List (String × α)) (k : String) (v : α) :
    List (String × α) :=
  (k, v) :: mdel l k

/-- `Set.add`. -/
def sadd (l : List String) (x : String) : List String :=
  if x ∈ l then l else x :: l

/-- `Set.delete`. -/
def sdel (l : List String) (x : String) : List String :=
  l.filter (fun y => y ≠ x)

/-- The slice of the external user document that the call handlers read
(`User.findById(..).select('_id isActive fcmToken')`). -/
structure UserRec where
  isActive : Bool
  fcmToken : Option String
deriving DecidableEq

/-- Read-only external user store. -/
abbrev Db := List (UserId × UserRec)

/-- A raw offer payload as received from the client; both fields may be
absent. -/
structure OfferRaw where
  rtype : Option String
  rsdp : Option String
deriving DecidableEq

/-- A normalized offer `{ type, sdp }` as cached and relayed. -/
structure Offer where
  otype : String
  osdp : String
deriving DecidableEq

/-- `offer && (offer.sdp || offer.type) ? { type: offer.type || 'offer',
sdp: offer.sdp || '' } : null` from the `call-invite` handler. -/
def normalizeOffer : Option OfferRaw → Option Offer
  | none => none
  | some o =>
    if truthy o.rsdp || truthy o.rtype then
      some { otype := jsOr o.rtype "offer", osdp := jsOr o.rsdp "" }
    else
      none

/-- One entry of `activeCalls`. -/
structure CallInfo where
  callerId : UserId
  calleeId : UserId
  callerName : String
  callType : String
  inviteSentAt : Nat
  offer : Offer
  acceptedAt : Option Nat
deriving DecidableEq

/-- One entry of `callRingTimeouts`: the scheduled deadline plus the values
captured by the timeout closure (`calleeFcmToken` is stored in the map entry;
`callerIdStr`, `calleeIdStr`, `callerName`, `callType` are captured by the
callback). -/
structure TimerInfo where
  deadline : Nat
  calleeFcmToken : Option String
  capCallerId : UserId
  capCalleeId : UserId
  capCallerName : String
  capCallType : String
deriving DecidableEq

/-- One document appended through `CallHistory.create`. -/
structure HistoryRecord where
  callerId : UserId
  calleeId : UserId
  channelId : ChannelId
  callType : String
  status : String
  startedAt : Nat
  endedAt : Nat
  durationSeconds : Nat
deriving DecidableEq

/-- The module-level mutable state of `socketHandler.js`. -/
structure ServerState where
  activeUsers : List (UserId × SocketId)
  activeCalls : List (ChannelId × CallInfo)
  callInviteSentForChannel : List ChannelId
  callRingTimeouts : List (ChannelId × TimerInfo)
  endedOrRejectedChannels : List ChannelId
  callHistory : List HistoryRecord
deriving DecidableEq

def initialState : ServerState := ⟨[], [], [], [], [], []⟩

/-- Every observable output of the handlers: targeted socket emits and
push-notification dispatches. -/
inductive Ev where
  | connectedEv (dst : SocketId) (uid : UserId)
  | callError (dst : SocketId) (msg : String)
  | callEnded (dst : SocketId) (channelId : ChannelId)
  | callRejectedEv (dst : SocketId) (channelId : ChannelId)
  | callInviteRelay (dst : SocketId) (channelId : ChannelId)
      (callerId calleeId : UserId) (offer : Offer)
  | callAccepted (dst : SocketId) (channelId : ChannelId) (callerId : UserId)
      (answer : String)
  | callUnavailable (dst : SocketId) (channelId : ChannelId) (calleeId : UserId)
  | callBusy (dst : SocketId) (channelId : ChannelId) (calleeId : UserId)
  | callOffer (dst : SocketId) (channelId : ChannelId) (offer : Offer)
  | iceRelay (dst : SocketId) (channelId : ChannelId) (fromUserId : UserId)
  | pushIncomingCall (token : String) (channelId : ChannelId)
      (callerId calleeId : UserId)
  | pushMissedCall (token : String) (channelId : ChannelId) (callerId : UserId)
deriving DecidableEq

def RING_TIMEOUT_MS : Nat := 3 * 60 * 1000

/-- Payload of `call-invite`.  Required string fields model
`String(x)`-coerced values, with `""` for an absent/falsy field;
`callType` and `callerName` keep their destructuring defaults explicit. -/
structure InviteData where
  channelId : ChannelId
  callType : Option String
  callerId : UserId
  callerName : Option String
  calleeId : UserId
  offer : Option OfferRaw
deriving DecidableEq

/-- Payload of `call-accept` (`answer` is opaque, only its truthiness and
relay matter). -/
structure AcceptData where
  channelId : ChannelId
  callerId : UserId
  answer : Option String
deriving DecidableEq

/-- Payload of `call-reject`. -/
structure RejectData where
  channelId : ChannelId
  callerId : UserId
deriving DecidableEq

/-- `io.on('connection', ...)`: `activeUsers.set(socket.userId, socket.id)`
followed by the `connected` acknowledgement. -/
def connectStep (s : ServerState) (uid : UserId) (sid : SocketId) :
    ServerState × List Ev :=
  ({ s with activeUsers := mset s.activeUsers uid sid },
   [Ev.connectedEv sid uid])

/-- Busy scan of the `call-invite` handler: some in-flight call involves the
authenticated caller or the callee, as caller or callee. -/
def isBusy (calls : List (ChannelId × CallInfo)) (a b : UserId) : Prop :=
  ∃ e ∈ calls,
    e.2.callerId = a ∨ e.2.calleeId = a ∨ e.2.callerId = b ∨ e.2.calleeId = b

instance (calls : List (ChannelId × CallInfo)) (a b : UserId) :
    Decidable (isBusy calls a b) := by
  unfold isBusy; infer_instance

/-- The `call-invite` handler. -/
def inviteStep (db : Db) (s : ServerState) (sid : SocketId) (uid : UserId)
    (d : InviteData) (now : Nat) : ServerState × List Ev :=
  if d.channelId = "" ∨ d.callerId = "" ∨ d.calleeId = "" then
    (s, [Ev.callError sid "channelId, callerId and calleeId are required"])
  else if d.channelId ∈ s.endedOrRejectedChannels then
    (s, [Ev.callEnded sid d.channelId])
  else if d.channelId ∈ s.callInviteSentForChannel then
    (s, [])
  else if (jsTrim d.callerId) ≠ uid then
    (s, [Ev.callError sid "callerId must match authenticated user"])
  else if (jsTrim d.calleeId) = uid then
    (s, [Ev.callError sid "Cannot call yourself"])
  else
    match normalizeOffer d.offer with
    | none => (s, [Ev.callError sid "offer with type and sdp is required"])
    | some offerPayload =>
      match mget db (jsTrim d.calleeId) with
      | none => (s, [Ev.callUnavailable sid d.channelId (jsTrim d.calleeId)])
      | some callee =>
        if callee.isActive = false then
          (s, [Ev.callUnavailable sid d.channelId (jsTrim d.calleeId)])
        else if isBusy s.activeCalls uid (jsTrim d.calleeId) then
          (s, [Ev.callBusy sid d.channelId (jsTrim d.calleeId)])
        else
          let ch := d.channelId
          let calleeIdStr := (jsTrim d.calleeId)
          let callerName := jsOr d.callerName ""
          let callType := d.callType.getD "audio"
          let s1 := { s with
            callInviteSentForChannel := sadd s.callInviteSentForChannel ch }
          let newCall : CallInfo :=
            { callerId := uid, calleeId := calleeIdStr,
              callerName := callerName, callType := callType,
              inviteSentAt := now, offer := offerPayload,
              acceptedAt := none }
          let online :=
            match mget s1.activeUsers calleeIdStr with
            | some calleeSocketId =>
              ({ s1 with activeCalls := mset s1.activeCalls ch newCall },
               [Ev.callInviteRelay calleeSocketId ch uid calleeIdStr
                  offerPayload])
            | none => (s1, [Ev.callUnavailable sid ch calleeIdStr])
          let pushEvs :=
            if truthy callee.fcmToken then
              [Ev.pushIncomingCall (callee.fcmToken.getD "") ch uid calleeIdStr]
            else []
          let newTimer : TimerInfo :=
            { deadline := now + RING_TIMEOUT_MS,
              calleeFcmToken := callee.fcmToken,
              capCallerId := uid, capCalleeId := calleeIdStr,
              capCallerName := callerName, capCallType := callType }
          let s3 := { online.1 with
            callRingTimeouts := mset online.1.callRingTimeouts ch newTimer }
          (s3, online.2 ++ pushEvs)

/-- The 3-minute ring-timeout callback scheduled by `call-invite`; it runs
only while its `callRingTimeouts` entry is still present (every
`clearTimeout` in the handler is paired with deleting that entry). -/
def timerFireStep (s : ServerState) (ch : ChannelId) (now : Nat) :
    ServerState × List Ev :=
  match mget s.callRingTimeouts ch with
  | none => (s, [])
  | some t =>
    let callOpt := mget s.activeCalls ch
    let s1 := { s with
      callRingTimeouts := mdel s.callRingTimeouts ch,
      endedOrRejectedChannels := sadd s.endedOrRejectedChannels ch,
      callInviteSentForChannel := sdel s.callInviteSentForChannel ch,
      activeCalls := mdel s.activeCalls ch }
    let cid := match callOpt with
      | some c => c.callerId
      | none => t.capCallerId
    let calleeIdForEnd := match callOpt with
      | some c => c.calleeId
      | none => t.capCalleeId
    let evs1 := match mget s1.activeUsers cid with
      | some csid => [Ev.callEnded csid ch]
      | none => []
    let evs2 := match mget s1.activeUsers calleeIdForEnd with
      | some esid => [Ev.callEnded esid ch]
      | none => []
    let startedAt := match callOpt with
      | some c => c.inviteSentAt
      | none => now - RING_TIMEOUT_MS
    let s2 := { s1 with callHistory := s1.callHistory ++
      [({ callerId := t.capCallerId, calleeId := t.capCalleeId,
          channelId := ch, callType := t.capCallType, status := "missed",
          startedAt := startedAt, endedAt := now,
          durationSeconds := 0 } : HistoryRecord)] }
    let evs3 :=
      if truthy t.calleeFcmToken then
        [Ev.pushMissedCall (t.calleeFcmToken.getD "") ch t.capCallerId]
      else []
    (s2, evs1 ++ evs2 ++ evs3)

/-- The `call-accept` handler. -/
def acceptStep (s : ServerState) (sid : SocketId) (uid : UserId)
    (d : AcceptData) (now : Nat) : ServerState × List Ev :=
  if d.channelId = "" ∨ d.callerId = "" ∨ ¬ truthy d.answer then
    (s, [Ev.callError sid "channelId, callerId and answer are required"])
  else
    match mget s.activeCalls d.channelId with
    | none => (s, [Ev.callError sid "Call not found"])
    | some call =>
      if call.calleeId ≠ uid then
        (s, [Ev.callError sid "Only callee can accept this call"])
      else
        match mget s.activeUsers d.callerId with
        | none =>
          ({ s with activeCalls := mdel s.activeCalls d.channelId },
           [Ev.callError sid "Caller is offline"])
        | some callerSocketId =>
          let s1 := { s with
            callRingTimeouts := mdel s.callRingTimeouts d.channelId }
          let acceptedCall : CallInfo := { call with acceptedAt := some now }
          let s2 := { s1 with
            activeCalls := mset s1.activeCalls d.channelId acceptedCall }
          (s2, [Ev.callAccepted callerSocketId d.channelId d.callerId
                  (d.answer.getD "")])

/-- The `call-reject` handler. -/
def rejectStep (s : ServerState) (sid : SocketId) (uid : UserId)
    (d : RejectData) (now : Nat) : ServerState × List Ev :=
  if d.channelId = "" ∨ d.callerId = "" then (s, [])
  else
    let ch := d.channelId
    let s1 := { s with callRingTimeouts := mdel s.callRingTimeouts ch }
    let s2 :=
      match mget s1.activeCalls ch with
      | none => s1
      | some call =>
        { s1 with callHistory := s1.callHistory ++
          [({ callerId := call.callerId, calleeId := call.calleeId,
              channelId := ch, callType := jsOrS call.callType "audio",
              status := "rejected", startedAt := call.inviteSentAt,
              endedAt := now, durationSeconds := 0 } : HistoryRecord)] }
    let s3 := { s2 with
      endedOrRejectedChannels := sadd s2.endedOrRejectedChannels ch,
      callInviteSentForChannel := sdel s2.callInviteSentForChannel ch,
      activeCalls := mdel s2.activeCalls ch }
    let evs1 := match mget s3.activeUsers (jsTrim d.callerId) with
      | some csid => [Ev.callRejectedEv csid ch]
      | none => []
    (s3, evs1 ++ [Ev.callEnded sid ch])

/-- The `call-end` handler.  `Math.round((endedAt - acceptedAt) / 1000)`
becomes `(now - a + 500) / 1000` on `Nat` milliseconds. -/
def endStep (s : ServerState) (sid : SocketId) (uid : UserId)
    (channelId : ChannelId) (now : Nat) : ServerState × List Ev :=
  if channelId = "" then (s, [])
  else
    match mget s.activeCalls channelId with
    | none => (s, [])
    | some call =>
      let otherUserId :=
        if call.callerId = uid then call.calleeId else call.callerId
      let evs1 := match mget s.activeUsers otherUserId with
        | some osid => [Ev.callEnded osid channelId]
        | none => []
      let startedAt := match call.acceptedAt with
        | some a => a
        | none => call.inviteSentAt
      let durationSeconds := match call.acceptedAt with
        | some a => (now - a + 500) / 1000
        | none => 0
      let s1 := { s with callHistory := s.callHistory ++
        [({ callerId := call.callerId, calleeId := call.calleeId,
            channelId := channelId, callType := jsOrS call.callType "audio",
            status := "answered", startedAt := startedAt, endedAt := now,
            durationSeconds := durationSeconds } : HistoryRecord)] }
      let s2 := { s1 with
        callRingTimeouts := mdel s1.callRingTimeouts channelId,
        endedOrRejectedChannels := sadd s1.endedOrRejectedChannels channelId,
        callInviteSentForChannel := sdel s1.callInviteSentForChannel channelId,
        activeCalls := mdel s1.activeCalls channelId }
      (s2, evs1 ++ [Ev.callEnded sid channelId])

/-- The `call-request-offer` handler. -/
def requestOfferStep (s : ServerState) (sid : SocketId) (uid : UserId)
    (channelId : ChannelId) : ServerState × List Ev :=
  if channelId = "" then (s, [])
  else
    match mget s.activeCalls channelId with
    | none => (s, [])
    | some call =>
      if call.calleeId ≠ uid then (s, [])
      else (s, [Ev.callOffer sid channelId call.offer])

/-- The `ice-candidate` handler (the candidate blob is opaque; only its
presence matters). -/
def iceStep (s : ServerState) (sid : SocketId) (uid : UserId)
    (channelId fromUserId : String) (candPresent : Bool) :
    ServerState × List Ev :=
  if channelId = "" ∨ candPresent = false ∨ fromUserId = "" then (s, [])
  else
    match mget s.activeCalls channelId with
    | none => (s, [])
    | some call =>
      let otherUserId :=
        if call.callerId = fromUserId then call.calleeId else call.callerId
      match mget s.activeUsers otherUserId with
      | some osid => (s, [Ev.iceRelay osid channelId fromUserId])
      | none => (s, [])

/-- One iteration of the `for (const [channelId, call] of activeCalls)` loop
in the `disconnect` handler. -/
def cleanupCall (uid : UserId) (acc : ServerState × List Ev)
    (e : ChannelId × CallInfo) : ServerState × List Ev :=
  if e.2.callerId = uid ∨ e.2.calleeId = uid then
    let otherUserId :=
      if e.2.callerId = uid then e.2.calleeId else e.2.callerId
    let evs1 := match mget acc.1.activeUsers otherUserId with
      | some osid => [Ev.callEnded osid e.1]
      | none => []
    ({ acc.1 with
        callRingTimeouts := mdel acc.1.callRingTimeouts e.1,
        endedOrRejectedChannels := sadd acc.1.endedOrRejectedChannels e.1,
        callInviteSentForChannel := sdel acc.1.callInviteSentForChannel e.1,
        activeCalls := mdel acc.1.activeCalls e.1 },
     acc.2 ++ evs1)
  else acc

/-- The `disconnect` handler: unconditional `activeUsers.delete`, then the
cleanup loop over `activeCalls` (no history record is written here). -/
def disconnectStep (s : ServerState) (uid : UserId) (sid : SocketId) :
    ServerState × List Ev :=
  let s0 := { s with activeUsers := mdel s.activeUsers uid }
  s0.activeCalls.foldl (cleanupCall uid) (s0, [])

/-- A client- or timer-originated event against the engine.  `sid`/`uid`
are the issuing socket and its authenticated user. -/
inductive Action where
  | connect (uid : UserId) (sid : SocketId)
  | invite (sid : SocketId) (uid : UserId) (d : InviteData) (now : Nat)
  | accept (sid : SocketId) (uid : UserId) (d : AcceptData) (now : Nat)
  | reject (sid : SocketId) (uid : UserId) (d : RejectData) (now : Nat)
  | endCall (sid : SocketId) (uid : UserId) (channelId : ChannelId) (now : Nat)
  | requestOffer (sid : SocketId) (uid : UserId) (channelId : ChannelId)
  | ice (sid : SocketId) (uid : UserId) (channelId fromUserId : String)
      (candPresent : Bool)
  | timerFire (channelId : ChannelId) (now : Nat)
  | disconnect (uid : UserId) (sid : SocketId)

/-- Sequential interleaving semantics of the handlers. -/
def step (db : Db) (s : ServerState) : Action → ServerState × List Ev
  | .connect uid sid => connectStep s uid sid
  | .invite sid uid d now => inviteStep db s sid uid d now
  | .accept sid uid d now => acceptStep s sid uid d now
  | .reject sid uid d now => rejectStep s sid uid d now
  | .endCall sid uid channelId now => endStep s sid uid channelId now
  | .requestOffer sid uid channelId => requestOfferStep s sid uid channelId
  | .ice sid uid channelId fromUserId candPresent =>
      iceStep s sid uid channelId fromUserId candPresent
  | .timerFire channelId now => timerFireStep s channelId now
  | .disconnect uid sid => disconnectStep s uid sid

/-- Run a sequence of actions, collecting all emitted events. -/
def runFrom (db : Db) (s : ServerState) : List Action → ServerState × List Ev
  | [] => (s, [])
  | a :: rest =>
    let p := step db s a
    let q := runFrom db p.1 rest
    (q.1, p.2 ++ q.2)

/-- A state the engine can actually be in. -/
def Reachable (db : Db) (s : ServerState) : Prop :=
  ∃ acts : List Action, (runFrom db initialState acts).1 = s

/-- Number of `call-invite` relays for a channel in an event list. -/
def relayCount (evs : List Ev) (ch : ChannelId) : Nat :=
  (evs.filter (fun e =>
    match e with
    | Ev.callInviteRelay _ c _ _ _ => c = ch
    | _ => false)).length

/-- Number of incoming-call push dispatches for a channel. -/
def pushIncomingCount (evs : List Ev) (ch : ChannelId) : Nat :=
  (evs.filter (fun e =>
    match e with
    | Ev.pushIncomingCall _ c _ _ => c = ch
    | _ => false)).length

/-- Number of missed-call push dispatches for a channel. -/
def pushMissedCount (evs : List Ev) (ch : ChannelId) : Nat :=
  (evs.filter (fun e =>
    match e with
    | Ev.pushMissedCall _ c _ => c = ch
    | _ => false)).length

/-- Number of `missed` history records for a channel. -/
def missedRecCount (h : List HistoryRecord) (ch : ChannelId) : Nat :=
  (h.filter (fun r => r.channelId = ch && r.status = "missed")).length

end FriendsChat

namespace FriendsChat

/-! ### Equations for `step` -/

theorem step_connect_eq (db : Db) (s : ServerState) (uid : UserId)
    (sid : SocketId) : step db s (Action.connect uid sid) =
      connectStep s uid sid := rfl

theorem step_invite_eq (db : Db) (s : ServerState) (sid : SocketId)
    (uid : UserId) (d : InviteData) (now : Nat) :
    step db s (Action.invite sid uid d now) =
      inviteStep db s sid uid d now := rfl

theorem step_accept_eq (db : Db) (s : ServerState) (sid : SocketId)
    (uid : UserId) (d : AcceptData) (now : Nat) :
    step db s (Action.accept sid uid d now) = acceptStep s sid uid d now := rfl

theorem step_reject_eq (db : Db) (s : ServerState) (sid : SocketId)
    (uid : UserId) (d : RejectData) (now : Nat) :
    step db s (Action.reject sid uid d now) = rejectStep s sid uid d now := rfl

theorem step_endCall_eq (db : Db) (s : ServerState) (sid : SocketId)
    (uid : UserId) (channelId : ChannelId) (now : Nat) :
    step db s (Action.endCall sid uid channelId now) =
      endStep s sid uid channelId now := rfl

theorem step_requestOffer_eq (db : Db) (s : ServerState) (sid : SocketId)
    (uid : UserId) (channelId : ChannelId) :
    step db s (Action.requestOffer sid uid channelId) =
      requestOfferStep s sid uid channelId := rfl

theorem step_ice_eq (db : Db) (s : ServerState) (sid : SocketId)
    (uid : UserId) (channelId fromUserId : String) (candPresent : Bool) :
    step db s (Action.ice sid uid channelId fromUserId candPresent) =
      iceStep s sid uid channelId fromUserId candPresent := rfl

theorem step_timerFire_eq (db : Db) (s : ServerState) (channelId : ChannelId)
    (now : Nat) : step db s (Action.timerFire channelId now) =
      timerFireStep s channelId now := rfl

theorem step_disconnect_eq (db : Db) (s : ServerState) (uid : UserId)
    (sid : SocketId) : step db s (Action.disconnect uid sid) =
      disconnectStep s uid sid := rfl

/-! ### Basic facts about the map and set operations -/

theorem mget_mset_self {α : Type} (l : List (String × α)) (k : String) (v : α) :
    mget (mset l k v) k = some v := by
  simp [mset, mget]

theorem mget_mdel {α : Type} (l : List (String × α)) (k x : String) :
    mget (mdel l k) x = if k = x then none else mget l x := by
  induction l with
  | nil => simp [mdel, mget]
  | cons hd tl ih =>
    obtain ⟨k', v'⟩ := hd
    simp only [mdel, mget]
    by_cases h1 : k' = k <;> by_cases h2 : k' = x <;> by_cases h3 : k = x <;>
      simp_all [mget]

theorem mget_mdel_self {α : Type} (l : List (String × α)) (k : String) :
    mget (mdel l k) k = none := by
  simp [mget_mdel]

theorem mget_mdel_ne {α : Type} (l : List (String × α)) {k x : String}
    (h : k ≠ x) : mget (mdel l k) x = mget l x := by
  simp [mget_mdel, h]

theorem mget_mset_ne {α : Type} (l : List (String × α)) {k x : String}
    (v : α) (h : k ≠ x) : mget (mset l k v) x = mget l x := by
  simp [mset, mget, h, mget_mdel]

theorem mget_mdel_some {α : Type} {l : List (String × α)} {k x : String}
    {v : α} (h : mget (mdel l k) x = some v) : mget l x = some v := by
  by_cases hk : k = x
  · subst hk; simp [mget_mdel_self] at h
  · rwa [mget_mdel_ne _ hk] at h

theorem mget_mdel_none {α : Type} {l : List (String × α)} {k x : String}
    (h : mget l x = none) : mget (mdel l k) x = none := by
  by_cases hk : k = x
  · subst hk; simp [mget_mdel_self]
  · rwa [mget_mdel_ne _ hk]

theorem mget_mem {α : Type} {l : List (String × α)} {k : String} {v : α}
    (h : mget l k = some v) : (k, v) ∈ l := by
  induction l with
  | nil => simp [mget] at h
  | cons hd tl ih =>
    obtain ⟨k', v'⟩ := hd
    by_cases hk : k' = k
    · subst hk
      simp [mget] at h
      simp [h]
    · simp [mget, hk] at h
      simp [ih h]

theorem mem_sadd {l : List String} {x y : String} :
    x ∈ sadd l y ↔ x = y ∨ x ∈ l := by
  unfold sadd
  split <;> rename_i h
  · constructor
    · exact fun hx => Or.inr hx
    · rintro (rfl | hx)
      · exact h
      · exact hx
  · simp [List.mem_cons]

theorem self_mem_sadd (l : List String) (y : String) : y ∈ sadd l y :=
  mem_sadd.mpr (Or.inl rfl)

theorem mem_sadd_of_mem {l : List String} {x : String} (y : String)
    (h : x ∈ l) : x ∈ sadd l y :=
  mem_sadd.mpr (Or.inr h)

theorem mem_sdel {l : List String} {x y : String} :
    x ∈ sdel l y ↔ x ∈ l ∧ x ≠ y := by
  simp [sdel]

theorem not_mem_sdel_self (l : List String) (y : String) : y ∉ sdel l y := by
  simp [mem_sdel]

theorem not_mem_sdel_of_not_mem {l : List String} {x : String} (y : String)
    (h : x ∉ l) : x ∉ sdel l y := by
  simp [mem_sdel]
  intro hx
  exact absurd hx h


/-! ### Invariants -/

/-- The channel already has its invite-sent marker or is terminal. -/
def markerOrTerminal (s : ServerState) (ch : ChannelId) : Prop :=
  ch ∈ s.callInviteSentForChannel ∨ ch ∈ s.endedOrRejectedChannels

/-- Structural invariant of the dedup bookkeeping: a terminal channel has no
invite-sent marker, and a live ring timer or a live call session implies the
invite-sent marker is still present. -/
def InvMain (s : ServerState) : Prop :=
  ∀ ch : ChannelId,
    (ch ∈ s.endedOrRejectedChannels → ch ∉ s.callInviteSentForChannel) ∧
    (mget s.callRingTimeouts ch ≠ none → ch ∈ s.callInviteSentForChannel) ∧
    (mget s.activeCalls ch ≠ none → ch ∈ s.callInviteSentForChannel)

/-- Busy invariant: two distinct in-flight sessions never share an identity. -/
def InvBusy (s : ServerState) : Prop :=
  ∀ ch1 c1 ch2 c2, mget s.activeCalls ch1 = some c1 →
    mget s.activeCalls ch2 = some c2 → ch1 ≠ ch2 →
    c1.callerId ≠ c2.callerId ∧ c1.callerId ≠ c2.calleeId ∧
    c1.calleeId ≠ c2.callerId ∧ c1.calleeId ≠ c2.calleeId

/-- A terminal channel has no live session and no pending ring timer. -/
theorem invMain_terminal_dead {s : ServerState} (h : InvMain s)
    {ch : ChannelId} (ht : ch ∈ s.endedOrRejectedChannels) :
    mget s.activeCalls ch = none ∧ mget s.callRingTimeouts ch = none := by
  obtain ⟨h1, h2, h3⟩ := h ch
  constructor
  · by_contra hc
    exact h1 ht (h3 hc)
  · by_contra hc
    exact h1 ht (h2 hc)

/-! ### Frame lemmas for the individual handlers -/

theorem inviteStep_frame (db : Db) (s : ServerState) (sid : SocketId)
    (uid : UserId) (d : InviteData) (now : Nat) :
    (inviteStep db s sid uid d now).1.endedOrRejectedChannels =
      s.endedOrRejectedChannels ∧
    (inviteStep db s sid uid d now).1.callHistory = s.callHistory ∧
    (inviteStep db s sid uid d now).1.activeUsers = s.activeUsers := by
  unfold inviteStep
  try dsimp only
  repeat' split
  all_goals exact ⟨rfl, rfl, rfl⟩

theorem acceptStep_frame (s : ServerState) (sid : SocketId) (uid : UserId)
    (d : AcceptData) (now : Nat) :
    (acceptStep s sid uid d now).1.endedOrRejectedChannels =
      s.endedOrRejectedChannels ∧
    (acceptStep s sid uid d now).1.callInviteSentForChannel =
      s.callInviteSentForChannel ∧
    (acceptStep s sid uid d now).1.callHistory = s.callHistory ∧
    (acceptStep s sid uid d now).1.activeUsers = s.activeUsers := by
  unfold acceptStep
  try dsimp only
  repeat' split
  all_goals exact ⟨rfl, rfl, rfl, rfl⟩

theorem rejectStep_frame (s : ServerState) (sid : SocketId) (uid : UserId)
    (d : RejectData) (now : Nat) :
    (rejectStep s sid uid d now).1.activeUsers = s.activeUsers := by
  unfold rejectStep
  try dsimp only
  repeat' split
  all_goals rfl

theorem endStep_frame (s : ServerState) (sid : SocketId) (uid : UserId)
    (channelId : ChannelId) (now : Nat) :
    (endStep s sid uid channelId now).1.activeUsers = s.activeUsers := by
  unfold endStep
  try dsimp only
  repeat' split
  all_goals rfl

theorem timerFireStep_frame (s : ServerState) (ch : ChannelId) (now : Nat) :
    (timerFireStep s ch now).1.activeUsers = s.activeUsers := by
  unfold timerFireStep
  try dsimp only
  repeat' split
  all_goals rfl

theorem requestOfferStep_state (s : ServerState) (sid : SocketId)
    (uid : UserId) (channelId : ChannelId) :
    (requestOfferStep s sid uid channelId).1 = s := by
  unfold requestOfferStep
  try dsimp only
  repeat' split
  all_goals rfl

theorem iceStep_state (s : ServerState) (sid : SocketId) (uid : UserId)
    (channelId fromUserId : String) (candPresent : Bool) :
    (iceStep s sid uid channelId fromUserId candPresent).1 = s := by
  unfold iceStep
  try dsimp only
  repeat' split
  all_goals rfl

/-! ### The disconnect cleanup loop -/

theorem cleanupCall_activeUsers (uid : UserId) (acc : ServerState × List Ev)
    (e : ChannelId × CallInfo) :
    (cleanupCall uid acc e).1.activeUsers = acc.1.activeUsers := by
  unfold cleanupCall
  try dsimp only
  repeat' split
  all_goals rfl

theorem cleanupCall_history (uid : UserId) (acc : ServerState × List Ev)
    (e : ChannelId × CallInfo) :
    (cleanupCall uid acc e).1.callHistory = acc.1.callHistory := by
  unfold cleanupCall
  try dsimp only
  repeat' split
  all_goals rfl

theorem cleanupCall_terminal_mono {uid : UserId} {acc : ServerState × List Ev}
    {e : ChannelId × CallInfo} {ch : ChannelId}
    (h : ch ∈ acc.1.endedOrRejectedChannels) :
    ch ∈ (cleanupCall uid acc e).1.endedOrRejectedChannels := by
  unfold cleanupCall
  try dsimp only
  repeat' split
  all_goals first
    | exact h
    | exact mem_sadd_of_mem _ h

theorem cleanupCall_mot {uid : UserId} {acc : ServerState × List Ev}
    {e : ChannelId × CallInfo} {ch : ChannelId}
    (h : ch ∈ acc.1.callInviteSentForChannel ∨
         ch ∈ acc.1.endedOrRejectedChannels) :
    ch ∈ (cleanupCall uid acc e).1.callInviteSentForChannel ∨
    ch ∈ (cleanupCall uid acc e).1.endedOrRejectedChannels := by
  unfold cleanupCall
  try dsimp only
  repeat' split
  case isFalse => exact h
  all_goals {
    by_cases hch : ch = e.1
    · subst hch
      exact Or.inr (self_mem_sadd _ _)
    · rcases h with hm | ht
      · exact Or.inl (mem_sdel.mpr ⟨hm, hch⟩)
      · exact Or.inr (mem_sadd_of_mem _ ht)
  }

theorem cleanupCall_timer_none {uid : UserId} {acc : ServerState × List Ev}
    {e : ChannelId × CallInfo} {ch : ChannelId}
    (h : mget acc.1.callRingTimeouts ch = none) :
    mget (cleanupCall uid acc e).1.callRingTimeouts ch = none := by
  unfold cleanupCall
  try dsimp only
  repeat' split
  all_goals first
    | exact h
    | exact mget_mdel_none h

theorem cleanupCall_calls_none {uid : UserId} {acc : ServerState × List Ev}
    {e : ChannelId × CallInfo} {ch : ChannelId}
    (h : mget acc.1.activeCalls ch = none) :
    mget (cleanupCall uid acc e).1.activeCalls ch = none := by
  unfold cleanupCall
  try dsimp only
  repeat' split
  all_goals first
    | exact h
    | exact mget_mdel_none h

theorem cleanupCall_calls_some {uid : UserId} {acc : ServerState × List Ev}
    {e : ChannelId × CallInfo} {ch : ChannelId} {c : CallInfo}
    (h : mget (cleanupCall uid acc e).1.activeCalls ch = some c) :
    mget acc.1.activeCalls ch = some c := by
  unfold cleanupCall at h
  revert h
  try dsimp only
  repeat' split
  all_goals intro h
  all_goals first
    | exact h
    | exact mget_mdel_some h

theorem cleanupCall_marker_not {uid : UserId} {acc : ServerState × List Ev}
    {e : ChannelId × CallInfo} {ch : ChannelId}
    (h : ch ∉ acc.1.callInviteSentForChannel) :
    ch ∉ (cleanupCall uid acc e).1.callInviteSentForChannel := by
  unfold cleanupCall
  try dsimp only
  repeat' split
  all_goals first
    | exact h
    | exact not_mem_sdel_of_not_mem _ h

theorem cleanupCall_invMain {uid : UserId} {acc : ServerState × List Ev}
    {e : ChannelId × CallInfo} (h : InvMain acc.1) :
    InvMain (cleanupCall uid acc e).1 := by
  unfold cleanupCall
  try dsimp only
  split
  case isFalse => exact h
  intro ch
  obtain ⟨h1, h2, h3⟩ := h ch
  refine ⟨?_, ?_, ?_⟩
  · intro ht
    rcases mem_sadd.mp ht with rfl | ht'
    · exact not_mem_sdel_self _ _
    · exact not_mem_sdel_of_not_mem _ (h1 ht')
  · intro htimer
    by_cases hch : ch = e.1
    · subst hch
      exact absurd (mget_mdel_self _ _) htimer
    · rw [mget_mdel_ne _ (Ne.symm hch)] at htimer
      exact mem_sdel.mpr ⟨h2 htimer, hch⟩
  · intro hcall
    by_cases hch : ch = e.1
    · subst hch
      exact absurd (mget_mdel_self _ _) hcall
    · rw [mget_mdel_ne _ (Ne.symm hch)] at hcall
      exact mem_sdel.mpr ⟨h3 hcall, hch⟩

theorem cleanupCall_invBusy {uid : UserId} {acc : ServerState × List Ev}
    {e : ChannelId × CallInfo} (h : InvBusy acc.1) :
    InvBusy (cleanupCall uid acc e).1 := by
  intro ch1 c1 ch2 c2 h1 h2 hne
  exact h ch1 c1 ch2 c2 (cleanupCall_calls_some h1) (cleanupCall_calls_some h2)
    hne

/-- Every event the cleanup loop itself produces is a `call-ended`. -/
def isCallEnded (ev : Ev) : Prop := ∃ dst c, ev = Ev.callEnded dst c

theorem cleanupCall_evs {uid : UserId} {acc : ServerState × List Ev}
    {e : ChannelId × CallInfo} (h : ∀ ev ∈ acc.2, isCallEnded ev) :
    ∀ ev ∈ (cleanupCall uid acc e).2, isCallEnded ev := by
  unfold cleanupCall
  try dsimp only
  repeat' split
  case isFalse => exact h
  all_goals intro ev hev
  all_goals rcases List.mem_append.mp hev with hl | hr
  · exact h ev hl
  · rcases List.mem_singleton.mp hr with rfl
    exact ⟨_, _, rfl⟩
  · exact h ev hl
  · simp at hr

theorem foldl_cleanup_pres {uid : UserId} {P : ServerState × List Ev → Prop}
    (hP : ∀ acc e, P acc → P (cleanupCall uid acc e)) :
    ∀ (l : List (ChannelId × CallInfo)) (acc : ServerState × List Ev),
      P acc → P (l.foldl (cleanupCall uid) acc) := by
  intro l
  induction l with
  | nil => exact fun acc h => h
  | cons hd tl ih => exact fun acc h => ih _ (hP acc hd h)

theorem foldl_cleanup_entry {uid : UserId} :
    ∀ (l : List (ChannelId × CallInfo)) (acc : ServerState × List Ev)
      (ch : ChannelId) (call : CallInfo), (ch, call) ∈ l →
      (call.callerId = uid ∨ call.calleeId = uid) →
      ch ∈ (l.foldl (cleanupCall uid) acc).1.endedOrRejectedChannels ∧
      mget (l.foldl (cleanupCall uid) acc).1.activeCalls ch = none ∧
      mget (l.foldl (cleanupCall uid) acc).1.callRingTimeouts ch = none ∧
      ch ∉ (l.foldl (cleanupCall uid) acc).1.callInviteSentForChannel := by
  intro l
  induction l with
  | nil => intro acc ch call h; simp at h
  | cons hd tl ih =>
    intro acc ch call hmem hinv
    rcases List.mem_cons.mp hmem with rfl | htl
    · have hbase :
          ch ∈ (cleanupCall uid acc (ch, call)).1.endedOrRejectedChannels ∧
          mget (cleanupCall uid acc (ch, call)).1.activeCalls ch = none ∧
          mget (cleanupCall uid acc (ch, call)).1.callRingTimeouts ch = none ∧
          ch ∉ (cleanupCall uid acc (ch, call)).1.callInviteSentForChannel := by
        unfold cleanupCall
        try dsimp only
        rw [if_pos hinv]
        repeat' split
        all_goals
          exact ⟨self_mem_sadd _ _, mget_mdel_self _ _, mget_mdel_self _ _,
            not_mem_sdel_self _ _⟩
      exact foldl_cleanup_pres
        (P := fun acc' => ch ∈ acc'.1.endedOrRejectedChannels ∧
          mget acc'.1.activeCalls ch = none ∧
          mget acc'.1.callRingTimeouts ch = none ∧
          ch ∉ acc'.1.callInviteSentForChannel)
        (fun acc' e hp => ⟨cleanupCall_terminal_mono hp.1,
          cleanupCall_calls_none hp.2.1, cleanupCall_timer_none hp.2.2.1,
          cleanupCall_marker_not hp.2.2.2⟩) tl _ hbase
    · exact ih _ ch call htl hinv

theorem foldl_cleanup_evs_mono {uid : UserId} {ev : Ev} :
    ∀ (l : List (ChannelId × CallInfo)) (acc : ServerState × List Ev),
      ev ∈ acc.2 → ev ∈ (l.foldl (cleanupCall uid) acc).2 := by
  refine foldl_cleanup_pres ?_
  intro acc e h
  unfold cleanupCall
  try dsimp only
  repeat' split
  all_goals first
    | exact h
    | exact List.mem_append.mpr (Or.inl h)

theorem foldl_cleanup_activeUsers {uid : UserId} :
    ∀ (l : List (ChannelId × CallInfo)) (acc : ServerState × List Ev),
      (l.foldl (cleanupCall uid) acc).1.activeUsers = acc.1.activeUsers := by
  intro l
  induction l with
  | nil => intro acc; rfl
  | cons hd tl ih =>
    intro acc
    rw [List.foldl_cons, ih, cleanupCall_activeUsers]

theorem foldl_cleanup_event {uid : UserId} :
    ∀ (l : List (ChannelId × CallInfo)) (acc : ServerState × List Ev)
      (ch : ChannelId) (call : CallInfo) (osid : SocketId), (ch, call) ∈ l →
      (call.callerId = uid ∨ call.calleeId = uid) →
      mget acc.1.activeUsers
        (if call.callerId = uid then call.calleeId else call.callerId) =
        some osid →
      Ev.callEnded osid ch ∈ (l.foldl (cleanupCall uid) acc).2 := by
  intro l
  induction l with
  | nil => intro acc ch call osid h; simp at h
  | cons hd tl ih =>
    intro acc ch call osid hmem hinv hosid
    rcases List.mem_cons.mp hmem with rfl | htl
    · refine foldl_cleanup_evs_mono tl _ ?_
      unfold cleanupCall
      try dsimp only
      rw [if_pos hinv, hosid]
      exact List.mem_append.mpr (Or.inr (List.mem_singleton.mpr rfl))
    · refine ih _ ch call osid htl hinv ?_
      rw [cleanupCall_activeUsers]
      exact hosid

/-! ### Counting lemmas -/

theorem relayCount_append (a b : List Ev) (ch : ChannelId) :
    relayCount (a ++ b) ch = relayCount a ch + relayCount b ch := by
  simp [relayCount, List.filter_append]

theorem pushIncomingCount_append (a b : List Ev) (ch : ChannelId) :
    pushIncomingCount (a ++ b) ch =
      pushIncomingCount a ch + pushIncomingCount b ch := by
  simp [pushIncomingCount, List.filter_append]

theorem pushMissedCount_append (a b : List Ev) (ch : ChannelId) :
    pushMissedCount (a ++ b) ch = pushMissedCount a ch + pushMissedCount b ch := by
  simp [pushMissedCount, List.filter_append]

theorem missedRecCount_append (a b : List HistoryRecord) (ch : ChannelId) :
    missedRecCount (a ++ b) ch = missedRecCount a ch + missedRecCount b ch := by
  simp [missedRecCount, List.filter_append]

theorem relayCount_zero_of_ended {evs : List Ev} {ch : ChannelId}
    (h : ∀ ev ∈ evs, isCallEnded ev) : relayCount evs ch = 0 := by
  simp only [relayCount, List.length_eq_zero, List.filter_eq_nil_iff]
  intro ev hev
  obtain ⟨dst, c, rfl⟩ := h ev hev
  simp

theorem pushIncomingCount_zero_of_ended {evs : List Ev} {ch : ChannelId}
    (h : ∀ ev ∈ evs, isCallEnded ev) : pushIncomingCount evs ch = 0 := by
  simp only [pushIncomingCount, List.length_eq_zero, List.filter_eq_nil_iff]
  intro ev hev
  obtain ⟨dst, c, rfl⟩ := h ev hev
  simp

theorem pushMissedCount_zero_of_ended {evs : List Ev} {ch : ChannelId}
    (h : ∀ ev ∈ evs, isCallEnded ev) : pushMissedCount evs ch = 0 := by
  simp only [pushMissedCount, List.length_eq_zero, List.filter_eq_nil_iff]
  intro ev hev
  obtain ⟨dst, c, rfl⟩ := h ev hev
  simp

/-! ### Per-handler event analysis -/

theorem connectStep_counts (s : ServerState) (uid : UserId) (sid : SocketId)
    (ch : ChannelId) :
    relayCount (connectStep s uid sid).2 ch = 0 ∧
    pushIncomingCount (connectStep s uid sid).2 ch = 0 ∧
    pushMissedCount (connectStep s uid sid).2 ch = 0 := by
  simp [connectStep, relayCount, pushIncomingCount, pushMissedCount]

theorem acceptStep_counts (s : ServerState) (sid : SocketId) (uid : UserId)
    (d : AcceptData) (now : Nat) (ch : ChannelId) :
    relayCount (acceptStep s sid uid d now).2 ch = 0 ∧
    pushIncomingCount (acceptStep s sid uid d now).2 ch = 0 ∧
    pushMissedCount (acceptStep s sid uid d now).2 ch = 0 := by
  unfold acceptStep
  try dsimp only
  repeat' split
  all_goals simp [relayCount, pushIncomingCount, pushMissedCount]

theorem rejectStep_counts (s : ServerState) (sid : SocketId) (uid : UserId)
    (d : RejectData) (now : Nat) (ch : ChannelId) :
    relayCount (rejectStep s sid uid d now).2 ch = 0 ∧
    pushIncomingCount (rejectStep s sid uid d now).2 ch = 0 ∧
    pushMissedCount (rejectStep s sid uid d now).2 ch = 0 := by
  unfold rejectStep
  try dsimp only
  repeat' split
  all_goals simp [relayCount, pushIncomingCount, pushMissedCount]

theorem endStep_counts (s : ServerState) (sid : SocketId) (uid : UserId)
    (channelId : ChannelId) (now : Nat) (ch : ChannelId) :
    relayCount (endStep s sid uid channelId now).2 ch = 0 ∧
    pushIncomingCount (endStep s sid uid channelId now).2 ch = 0 ∧
    pushMissedCount (endStep s sid uid channelId now).2 ch = 0 := by
  unfold endStep
  try dsimp only
  repeat' split
  all_goals simp [relayCount, pushIncomingCount, pushMissedCount]

theorem requestOfferStep_counts (s : ServerState) (sid : SocketId)
    (uid : UserId) (channelId : ChannelId) (ch : ChannelId) :
    relayCount (requestOfferStep s sid uid channelId).2 ch = 0 ∧
    pushIncomingCount (requestOfferStep s sid uid channelId).2 ch = 0 ∧
    pushMissedCount (requestOfferStep s sid uid channelId).2 ch = 0 := by
  unfold requestOfferStep
  try dsimp only
  repeat' split
  all_goals simp [relayCount, pushIncomingCount, pushMissedCount]

theorem iceStep_counts (s : ServerState) (sid : SocketId) (uid : UserId)
    (channelId fromUserId : String) (candPresent : Bool) (ch : ChannelId) :
    relayCount (iceStep s sid uid channelId fromUserId candPresent).2 ch = 0 ∧
    pushIncomingCount (iceStep s sid uid channelId fromUserId candPresent).2
      ch = 0 ∧
    pushMissedCount (iceStep s sid uid channelId fromUserId candPresent).2
      ch = 0 := by
  unfold iceStep
  try dsimp only
  repeat' split
  all_goals simp [relayCount, pushIncomingCount, pushMissedCount]

theorem timerFireStep_counts (s : ServerState) (ch' : ChannelId) (now : Nat)
    (ch : ChannelId) :
    relayCount (timerFireStep s ch' now).2 ch = 0 ∧
    pushIncomingCount (timerFireStep s ch' now).2 ch = 0 := by
  unfold timerFireStep
  try dsimp only
  repeat' split
  all_goals simp [relayCount, pushIncomingCount]

theorem timerFireStep_missedpush (s : ServerState) (ch' : ChannelId)
    (now : Nat) (ch : ChannelId)
    (h : mget s.callRingTimeouts ch' = none ∨ ch ≠ ch') :
    pushMissedCount (timerFireStep s ch' now).2 ch = 0 := by
  unfold timerFireStep
  try dsimp only
  repeat' split
  all_goals rcases h with h | h
  all_goals first
    | simp_all [pushMissedCount, List.filter_append]
    | simp [pushMissedCount, List.filter_append, Ne.symm h]
  all_goals exact fun hc => h hc.symm

theorem disconnectStep_evs (s : ServerState) (uid : UserId) (sid : SocketId) :
    ∀ ev ∈ (disconnectStep s uid sid).2, isCallEnded ev := by
  unfold disconnectStep
  try dsimp only
  refine foldl_cleanup_pres (P := fun acc => ∀ ev ∈ acc.2, isCallEnded ev)
    (fun acc e h => cleanupCall_evs h) _ _ ?_
  intro ev hev
  simp at hev

theorem disconnectStep_counts (s : ServerState) (uid : UserId)
    (sid : SocketId) (ch : ChannelId) :
    relayCount (disconnectStep s uid sid).2 ch = 0 ∧
    pushIncomingCount (disconnectStep s uid sid).2 ch = 0 ∧
    pushMissedCount (disconnectStep s uid sid).2 ch = 0 :=
  ⟨relayCount_zero_of_ended (disconnectStep_evs s uid sid),
   pushIncomingCount_zero_of_ended (disconnectStep_evs s uid sid),
   pushMissedCount_zero_of_ended (disconnectStep_evs s uid sid)⟩

theorem inviteStep_counts_le (db : Db) (s : ServerState) (sid : SocketId)
    (uid : UserId) (d : InviteData) (now : Nat) (ch : ChannelId) :
    relayCount (inviteStep db s sid uid d now).2 ch ≤ 1 ∧
    pushIncomingCount (inviteStep db s sid uid d now).2 ch ≤ 1 ∧
    pushMissedCount (inviteStep db s sid uid d now).2 ch = 0 := by
  unfold inviteStep
  try dsimp only
  repeat' split
  all_goals refine ⟨?_, ?_, ?_⟩
  all_goals
    simp only [relayCount, pushIncomingCount, pushMissedCount,
      List.filter_append, List.filter_cons, List.filter_nil,
      List.length_append]
  all_goals try (simp; done)
  all_goals split_ifs <;> simp_all

theorem inviteStep_no_emit (db : Db) (s : ServerState) (sid : SocketId)
    (uid : UserId) (d : InviteData) (now : Nat) (ch : ChannelId)
    (h : ch ∈ s.callInviteSentForChannel ∨ ch ∈ s.endedOrRejectedChannels) :
    relayCount (inviteStep db s sid uid d now).2 ch = 0 ∧
    pushIncomingCount (inviteStep db s sid uid d now).2 ch = 0 := by
  unfold inviteStep
  try dsimp only
  repeat' split
  all_goals
    try (refine ⟨?_, ?_⟩ <;>
      (simp only [relayCount, pushIncomingCount, List.filter_append,
        List.filter_cons, List.filter_nil, List.length_append]
       simp) <;> done)
  all_goals
    have hne : d.channelId ≠ ch := by
      rintro rfl
      rcases h with h | h
      · exact absurd h (by assumption)
      · exact absurd h (by assumption)
  all_goals refine ⟨?_, ?_⟩
  all_goals
    simp [relayCount, pushIncomingCount, List.filter_append,
      List.filter_cons, List.filter_nil, hne, Ne.symm hne]

theorem inviteStep_marker_after (db : Db) (s : ServerState) (sid : SocketId)
    (uid : UserId) (d : InviteData) (now : Nat) (ch : ChannelId)
    (h : 1 ≤ relayCount (inviteStep db s sid uid d now).2 ch +
         pushIncomingCount (inviteStep db s sid uid d now).2 ch) :
    ch ∈ (inviteStep db s sid uid d now).1.callInviteSentForChannel := by
  revert h
  unfold inviteStep
  try dsimp only
  repeat' split
  all_goals intro h
  all_goals
    try (exfalso
         simp [relayCount, pushIncomingCount, List.filter_append,
           List.filter_cons, List.filter_nil] at h
         done)
  all_goals by_cases hch : d.channelId = ch
  all_goals
    try (exfalso
         simp [relayCount, pushIncomingCount, List.filter_append,
           List.filter_cons, List.filter_nil, hch, Ne.symm hch] at h
         done)
  all_goals subst hch
  all_goals exact self_mem_sadd _ _

/-! ### Preservation of the invariants by each handler -/

theorem mget_ne_none_of_mdel {α : Type} {l : List (String × α)} {k x : String}
    (hc : mget (mdel l k) x ≠ none) : mget l x ≠ none := by
  rw [mget_mdel] at hc
  by_cases h : k = x
  · simp [h] at hc
  · simpa [h] using hc

/-- A handler that marks a channel terminal (reject / end / ring-timeout /
disconnect cleanup all use the same four updates) preserves `InvMain`. -/
theorem invMain_close (s : ServerState) (ch : ChannelId) (h : InvMain s)
    (s' : ServerState)
    (hterm : s'.endedOrRejectedChannels = sadd s.endedOrRejectedChannels ch)
    (hmark : s'.callInviteSentForChannel = sdel s.callInviteSentForChannel ch)
    (htim : s'.callRingTimeouts = mdel s.callRingTimeouts ch)
    (hcalls : s'.activeCalls = mdel s.activeCalls ch) : InvMain s' := by
  intro x
  obtain ⟨h1, h2, h3⟩ := h x
  rw [hterm, hmark, htim, hcalls]
  refine ⟨?_, ?_, ?_⟩
  · intro ht
    rcases mem_sadd.mp ht with rfl | ht'
    · exact not_mem_sdel_self _ _
    · exact not_mem_sdel_of_not_mem _ (h1 ht')
  · intro htimer
    by_cases hx : x = ch
    · subst hx
      exact absurd (mget_mdel_self _ _) htimer
    · rw [mget_mdel_ne _ (Ne.symm hx)] at htimer
      exact mem_sdel.mpr ⟨h2 htimer, hx⟩
  · intro hcall
    by_cases hx : x = ch
    · subst hx
      exact absurd (mget_mdel_self _ _) hcall
    · rw [mget_mdel_ne _ (Ne.symm hx)] at hcall
      exact mem_sdel.mpr ⟨h3 hcall, hx⟩

theorem connectStep_invMain {s : ServerState} {uid : UserId} {sid : SocketId}
    (h : InvMain s) : InvMain (connectStep s uid sid).1 := h

theorem rejectStep_invMain {s : ServerState} {sid : SocketId} {uid : UserId}
    {d : RejectData} {now : Nat} (h : InvMain s) :
    InvMain (rejectStep s sid uid d now).1 := by
  unfold rejectStep
  try dsimp only
  repeat' split
  all_goals first
    | exact h
    | exact invMain_close s d.channelId h _ rfl rfl rfl rfl

theorem endStep_invMain {s : ServerState} {sid : SocketId} {uid : UserId}
    {channelId : ChannelId} {now : Nat} (h : InvMain s) :
    InvMain (endStep s sid uid channelId now).1 := by
  unfold endStep
  try dsimp only
  repeat' split
  all_goals first
    | exact h
    | exact invMain_close s channelId h _ rfl rfl rfl rfl

theorem timerFireStep_invMain {s : ServerState} {ch : ChannelId} {now : Nat}
    (h : InvMain s) : InvMain (timerFireStep s ch now).1 := by
  unfold timerFireStep
  try dsimp only
  repeat' split
  all_goals first
    | exact h
    | exact invMain_close s ch h _ rfl rfl rfl rfl

theorem acceptStep_invMain {s : ServerState} {sid : SocketId} {uid : UserId}
    {d : AcceptData} {now : Nat} (h : InvMain s) :
    InvMain (acceptStep s sid uid d now).1 := by
  unfold acceptStep
  try dsimp only
  repeat' split
  all_goals try exact h
  · -- caller offline: the session is deleted, nothing else changes
    intro x
    obtain ⟨h1, h2, h3⟩ := h x
    exact ⟨h1, h2, fun hc => h3 (mget_ne_none_of_mdel hc)⟩
  · -- success: ring timer deleted, session replaced in place
    intro x
    obtain ⟨h1, h2, h3⟩ := h x
    refine ⟨h1, fun htimer => h2 (mget_ne_none_of_mdel htimer), ?_⟩
    intro hcall
    by_cases hx : x = d.channelId
    · subst hx
      exact (h d.channelId).2.2 (by simp_all)
    · rw [mget_mset_ne _ _ (Ne.symm hx)] at hcall
      exact h3 hcall

theorem inviteStep_invMain {db : Db} {s : ServerState} {sid : SocketId}
    {uid : UserId} {d : InviteData} {now : Nat} (h : InvMain s) :
    InvMain (inviteStep db s sid uid d now).1 := by
  unfold inviteStep
  try dsimp only
  repeat' split
  all_goals try exact h
  all_goals intro x
  all_goals obtain ⟨h1, h2, h3⟩ := h x
  all_goals refine ⟨?_, ?_, ?_⟩
  -- terminal entries keep no marker: the invited channel is not terminal
  all_goals try (
    intro ht
    intro hmem
    rcases mem_sadd.mp hmem with rfl | hm
    · exact absurd ht (by assumption)
    · exact h1 ht hm)
  -- the new ring timer (and possibly the new session) is on the channel
  -- whose marker was just added; other channels fall to the hypothesis
  all_goals try (
    intro hne
    by_cases hx : x = d.channelId
    · exact hx ▸ self_mem_sadd _ _
    · rw [mget_mset_ne _ _ (Ne.symm hx)] at hne
      first
        | exact mem_sadd_of_mem _ (h2 hne)
        | exact mem_sadd_of_mem _ (h3 hne))
  all_goals
    exact fun hne => mem_sadd_of_mem _ (h3 hne)

theorem disconnectStep_invMain {s : ServerState} {uid : UserId}
    {sid : SocketId} (h : InvMain s) : InvMain (disconnectStep s uid sid).1 := by
  unfold disconnectStep
  try dsimp only
  exact foldl_cleanup_pres (P := fun acc => InvMain acc.1)
    (fun acc e hp => cleanupCall_invMain hp) _ _ h

/-- Only-deletions on `activeCalls` preserve the busy invariant. -/
theorem invBusy_of_sub {s s' : ServerState}
    (hsub : ∀ ch c, mget s'.activeCalls ch = some c →
      mget s.activeCalls ch = some c)
    (h : InvBusy s) : InvBusy s' := by
  intro ch1 c1 ch2 c2 h1 h2 hne
  exact h ch1 c1 ch2 c2 (hsub _ _ h1) (hsub _ _ h2) hne

theorem rejectStep_invBusy {s : ServerState} {sid : SocketId} {uid : UserId}
    {d : RejectData} {now : Nat} (h : InvBusy s) :
    InvBusy (rejectStep s sid uid d now).1 := by
  refine invBusy_of_sub (fun ch c hc => ?_) h
  revert hc
  unfold rejectStep
  try dsimp only
  repeat' split
  all_goals intro hc
  all_goals first
    | exact hc
    | exact mget_mdel_some hc

theorem endStep_invBusy {s : ServerState} {sid : SocketId} {uid : UserId}
    {channelId : ChannelId} {now : Nat} (h : InvBusy s) :
    InvBusy (endStep s sid uid channelId now).1 := by
  refine invBusy_of_sub (fun ch c hc => ?_) h
  revert hc
  unfold endStep
  try dsimp only
  repeat' split
  all_goals intro hc
  all_goals first
    | exact hc
    | exact mget_mdel_some hc

theorem timerFireStep_invBusy {s : ServerState} {ch' : ChannelId} {now : Nat}
    (h : InvBusy s) : InvBusy (timerFireStep s ch' now).1 := by
  refine invBusy_of_sub (fun ch c hc => ?_) h
  revert hc
  unfold timerFireStep
  try dsimp only
  repeat' split
  all_goals intro hc
  all_goals first
    | exact hc
    | exact mget_mdel_some hc

theorem disconnectStep_invBusy {s : ServerState} {uid : UserId}
    {sid : SocketId} (h : InvBusy s) : InvBusy (disconnectStep s uid sid).1 := by
  unfold disconnectStep
  try dsimp only
  exact foldl_cleanup_pres (P := fun acc => InvBusy acc.1)
    (fun acc e hp => cleanupCall_invBusy hp) _ _ h

theorem acceptStep_invBusy {s : ServerState} {sid : SocketId} {uid : UserId}
    {d : AcceptData} {now : Nat} (h : InvBusy s) :
    InvBusy (acceptStep s sid uid d now).1 := by
  unfold acceptStep
  try dsimp only
  repeat' split
  all_goals try exact h
  · -- caller offline: deletion only
    exact invBusy_of_sub (fun ch c hc => mget_mdel_some hc) h
  · -- success: the stored session is replaced by one with the same parties
    rename_i callv heqv hcal so csid heqsid
    intro ch1 c1 ch2 c2 h1 h2 hne
    by_cases hx1 : ch1 = d.channelId
    · subst hx1
      rw [mget_mset_self] at h1
      injection h1 with h1
      rw [mget_mset_ne _ _ hne] at h2
      have horig := h d.channelId callv ch2 c2 heqv h2 hne
      subst h1
      exact horig
    · rw [mget_mset_ne _ _ (Ne.symm hx1)] at h1
      by_cases hx2 : ch2 = d.channelId
      · subst hx2
        rw [mget_mset_self] at h2
        injection h2 with h2
        have horig := h ch1 c1 d.channelId callv h1 heqv hne
        subst h2
        exact horig
      · rw [mget_mset_ne _ _ (Ne.symm hx2)] at h2
        exact h ch1 c1 ch2 c2 h1 h2 hne

theorem inviteStep_invBusy {db : Db} {s : ServerState} {sid : SocketId}
    {uid : UserId} {d : InviteData} {now : Nat} (h : InvBusy s) :
    InvBusy (inviteStep db s sid uid d now).1 := by
  unfold inviteStep
  try dsimp only
  repeat' split
  all_goals try exact h
  all_goals
    intro ch1 c1 ch2 c2 h1 h2 hne
  all_goals
    have hbusy : ¬ isBusy s.activeCalls uid ((jsTrim d.calleeId)) := by
      assumption
  all_goals by_cases hx1 : ch1 = d.channelId
  · subst hx1
    rw [mget_mset_self] at h1
    injection h1 with h1
    rw [mget_mset_ne _ _ hne] at h2
    have hmem := mget_mem h2
    subst h1
    exact ⟨fun hc => hbusy ⟨(ch2, c2), hmem, Or.inl hc.symm⟩,
           fun hc => hbusy ⟨(ch2, c2), hmem, Or.inr (Or.inl hc.symm)⟩,
           fun hc => hbusy ⟨(ch2, c2), hmem, Or.inr (Or.inr (Or.inl hc.symm))⟩,
           fun hc => hbusy ⟨(ch2, c2), hmem, Or.inr (Or.inr (Or.inr hc.symm))⟩⟩
  · rw [mget_mset_ne _ _ (Ne.symm hx1)] at h1
    by_cases hx2 : ch2 = d.channelId
    · subst hx2
      rw [mget_mset_self] at h2
      injection h2 with h2
      have hmem := mget_mem h1
      subst h2
      exact ⟨fun hc => hbusy ⟨(ch1, c1), hmem, Or.inl hc⟩,
             fun hc => hbusy ⟨(ch1, c1), hmem, Or.inr (Or.inr (Or.inl hc))⟩,
             fun hc => hbusy ⟨(ch1, c1), hmem, Or.inr (Or.inl hc)⟩,
             fun hc => hbusy ⟨(ch1, c1), hmem, Or.inr (Or.inr (Or.inr hc))⟩⟩
    · rw [mget_mset_ne _ _ (Ne.symm hx2)] at h2
      exact h ch1 c1 ch2 c2 h1 h2 hne
  · subst hx1
    rw [mget_mset_self] at h1
    injection h1 with h1
    rw [mget_mset_ne _ _ hne] at h2
    have hmem := mget_mem h2
    subst h1
    exact ⟨fun hc => hbusy ⟨(ch2, c2), hmem, Or.inl hc.symm⟩,
           fun hc => hbusy ⟨(ch2, c2), hmem, Or.inr (Or.inl hc.symm)⟩,
           fun hc => hbusy ⟨(ch2, c2), hmem, Or.inr (Or.inr (Or.inl hc.symm))⟩,
           fun hc => hbusy ⟨(ch2, c2), hmem, Or.inr (Or.inr (Or.inr hc.symm))⟩⟩
  · rw [mget_mset_ne _ _ (Ne.symm hx1)] at h1
    by_cases hx2 : ch2 = d.channelId
    · subst hx2
      rw [mget_mset_self] at h2
      injection h2 with h2
      have hmem := mget_mem h1
      subst h2
      exact ⟨fun hc => hbusy ⟨(ch1, c1), hmem, Or.inl hc⟩,
             fun hc => hbusy ⟨(ch1, c1), hmem, Or.inr (Or.inr (Or.inl hc))⟩,
             fun hc => hbusy ⟨(ch1, c1), hmem, Or.inr (Or.inl hc)⟩,
             fun hc => hbusy ⟨(ch1, c1), hmem, Or.inr (Or.inr (Or.inr hc))⟩⟩
    · rw [mget_mset_ne _ _ (Ne.symm hx2)] at h2
      exact h ch1 c1 ch2 c2 h1 h2 hne

/-! ### Monotonicity of the dedup sets -/

theorem inviteStep_marker_mono {db : Db} {s : ServerState} {sid : SocketId}
    {uid : UserId} {d : InviteData} {now : Nat} {ch : ChannelId}
    (h : ch ∈ s.callInviteSentForChannel) :
    ch ∈ (inviteStep db s sid uid d now).1.callInviteSentForChannel := by
  unfold inviteStep
  try dsimp only
  repeat' split
  all_goals first
    | exact h
    | exact mem_sadd_of_mem _ h

theorem rejectStep_terminal_mono {s : ServerState} {sid : SocketId}
    {uid : UserId} {d : RejectData} {now : Nat} {ch : ChannelId}
    (h : ch ∈ s.endedOrRejectedChannels) :
    ch ∈ (rejectStep s sid uid d now).1.endedOrRejectedChannels := by
  unfold rejectStep
  try dsimp only
  repeat' split
  all_goals first
    | exact h
    | exact mem_sadd_of_mem _ h

theorem endStep_terminal_mono {s : ServerState} {sid : SocketId}
    {uid : UserId} {channelId : ChannelId} {now : Nat} {ch : ChannelId}
    (h : ch ∈ s.endedOrRejectedChannels) :
    ch ∈ (endStep s sid uid channelId now).1.endedOrRejectedChannels := by
  unfold endStep
  try dsimp only
  repeat' split
  all_goals first
    | exact h
    | exact mem_sadd_of_mem _ h

theorem timerFireStep_terminal_mono {s : ServerState} {ch' : ChannelId}
    {now : Nat} {ch : ChannelId} (h : ch ∈ s.endedOrRejectedChannels) :
    ch ∈ (timerFireStep s ch' now).1.endedOrRejectedChannels := by
  unfold timerFireStep
  try dsimp only
  repeat' split
  all_goals first
    | exact h
    | exact mem_sadd_of_mem _ h

theorem disconnectStep_terminal_mono {s : ServerState} {uid : UserId}
    {sid : SocketId} {ch : ChannelId} (h : ch ∈ s.endedOrRejectedChannels) :
    ch ∈ (disconnectStep s uid sid).1.endedOrRejectedChannels := by
  unfold disconnectStep
  try dsimp only
  exact foldl_cleanup_pres
    (P := fun acc => ch ∈ acc.1.endedOrRejectedChannels)
    (fun acc e hp => cleanupCall_terminal_mono hp) _ _ h

theorem step_terminal_mono (db : Db) (s : ServerState) (a : Action)
    {ch : ChannelId} (h : ch ∈ s.endedOrRejectedChannels) :
    ch ∈ (step db s a).1.endedOrRejectedChannels := by
  cases a with
  | connect uid sid => exact h
  | invite sid uid d now =>
    rw [step_invite_eq, (inviteStep_frame db s sid uid d now).1]
    exact h
  | accept sid uid d now =>
    rw [step_accept_eq, (acceptStep_frame s sid uid d now).1]
    exact h
  | reject sid uid d now =>
    rw [step_reject_eq]
    exact rejectStep_terminal_mono h
  | endCall sid uid channelId now =>
    rw [step_endCall_eq]
    exact endStep_terminal_mono h
  | requestOffer sid uid channelId =>
    rw [step_requestOffer_eq, requestOfferStep_state]
    exact h
  | ice sid uid channelId fromUserId candPresent =>
    rw [step_ice_eq, iceStep_state]
    exact h
  | timerFire channelId now =>
    rw [step_timerFire_eq]
    exact timerFireStep_terminal_mono h
  | disconnect uid sid =>
    rw [step_disconnect_eq]
    exact disconnectStep_terminal_mono h

theorem rejectStep_mot {s : ServerState} {sid : SocketId} {uid : UserId}
    {d : RejectData} {now : Nat} {ch : ChannelId}
    (h : ch ∈ s.callInviteSentForChannel ∨ ch ∈ s.endedOrRejectedChannels) :
    ch ∈ (rejectStep s sid uid d now).1.callInviteSentForChannel ∨
    ch ∈ (rejectStep s sid uid d now).1.endedOrRejectedChannels := by
  unfold rejectStep
  try dsimp only
  repeat' split
  all_goals try exact h
  all_goals by_cases hch : ch = d.channelId
  all_goals try (subst hch; exact Or.inr (self_mem_sadd _ _))
  all_goals
    rcases h with hm | ht
  all_goals first
    | exact Or.inl (mem_sdel.mpr ⟨hm, hch⟩)
    | exact Or.inr (mem_sadd_of_mem _ ht)

theorem endStep_mot {s : ServerState} {sid : SocketId} {uid : UserId}
    {channelId : ChannelId} {now : Nat} {ch : ChannelId}
    (h : ch ∈ s.callInviteSentForChannel ∨ ch ∈ s.endedOrRejectedChannels) :
    ch ∈ (endStep s sid uid channelId now).1.callInviteSentForChannel ∨
    ch ∈ (endStep s sid uid channelId now).1.endedOrRejectedChannels := by
  unfold endStep
  try dsimp only
  repeat' split
  all_goals try exact h
  all_goals by_cases hch : ch = channelId
  all_goals try (subst hch; exact Or.inr (self_mem_sadd _ _))
  all_goals
    rcases h with hm | ht
  all_goals first
    | exact Or.inl (mem_sdel.mpr ⟨hm, hch⟩)
    | exact Or.inr (mem_sadd_of_mem _ ht)

theorem timerFireStep_mot {s : ServerState} {ch' : ChannelId} {now : Nat}
    {ch : ChannelId}
    (h : ch ∈ s.callInviteSentForChannel ∨ ch ∈ s.endedOrRejectedChannels) :
    ch ∈ (timerFireStep s ch' now).1.callInviteSentForChannel ∨
    ch ∈ (timerFireStep s ch' now).1.endedOrRejectedChannels := by
  unfold timerFireStep
  try dsimp only
  repeat' split
  all_goals try exact h
  all_goals by_cases hch : ch = ch'
  all_goals try (subst hch; exact Or.inr (self_mem_sadd _ _))
  all_goals
    rcases h with hm | ht
  all_goals first
    | exact Or.inl (mem_sdel.mpr ⟨hm, hch⟩)
    | exact Or.inr (mem_sadd_of_mem _ ht)

theorem step_mot_mono (db : Db) (s : ServerState) (a : Action)
    {ch : ChannelId}
    (h : ch ∈ s.callInviteSentForChannel ∨ ch ∈ s.endedOrRejectedChannels) :
    ch ∈ (step db s a).1.callInviteSentForChannel ∨
    ch ∈ (step db s a).1.endedOrRejectedChannels := by
  cases a with
  | connect uid sid => exact h
  | invite sid uid d now =>
    rw [step_invite_eq]
    rcases h with hm | ht
    · exact Or.inl (inviteStep_marker_mono hm)
    · exact Or.inr ((inviteStep_frame db s sid uid d now).1 ▸ ht)
  | accept sid uid d now =>
    rw [step_accept_eq]
    rcases h with hm | ht
    · exact Or.inl ((acceptStep_frame s sid uid d now).2.1 ▸ hm)
    · exact Or.inr ((acceptStep_frame s sid uid d now).1 ▸ ht)
  | reject sid uid d now =>
    rw [step_reject_eq]
    exact rejectStep_mot h
  | endCall sid uid channelId now =>
    rw [step_endCall_eq]
    exact endStep_mot h
  | requestOffer sid uid channelId =>
    rw [step_requestOffer_eq, requestOfferStep_state]
    exact h
  | ice sid uid channelId fromUserId candPresent =>
    rw [step_ice_eq, iceStep_state]
    exact h
  | timerFire channelId now =>
    rw [step_timerFire_eq]
    exact timerFireStep_mot h
  | disconnect uid sid =>
    rw [step_disconnect_eq]
    exact foldl_cleanup_pres
      (P := fun acc => ch ∈ acc.1.callInviteSentForChannel ∨
        ch ∈ acc.1.endedOrRejectedChannels)
      (fun acc e hp => cleanupCall_mot hp) _ _ h

theorem step_invMain (db : Db) (s : ServerState) (a : Action)
    (h : InvMain s) : InvMain (step db s a).1 := by
  cases a with
  | connect uid sid => exact connectStep_invMain h
  | invite sid uid d now =>
    rw [step_invite_eq]
    exact inviteStep_invMain h
  | accept sid uid d now =>
    rw [step_accept_eq]
    exact acceptStep_invMain h
  | reject sid uid d now =>
    rw [step_reject_eq]
    exact rejectStep_invMain h
  | endCall sid uid channelId now =>
    rw [step_endCall_eq]
    exact endStep_invMain h
  | requestOffer sid uid channelId =>
    rw [step_requestOffer_eq, requestOfferStep_state]
    exact h
  | ice sid uid channelId fromUserId candPresent =>
    rw [step_ice_eq, iceStep_state]
    exact h
  | timerFire channelId now =>
    rw [step_timerFire_eq]
    exact timerFireStep_invMain h
  | disconnect uid sid =>
    rw [step_disconnect_eq]
    exact disconnectStep_invMain h

theorem step_invBusy (db : Db) (s : ServerState) (a : Action)
    (h : InvBusy s) : InvBusy (step db s a).1 := by
  cases a with
  | connect uid sid => exact h
  | invite sid uid d now =>
    rw [step_invite_eq]
    exact inviteStep_invBusy h
  | accept sid uid d now =>
    rw [step_accept_eq]
    exact acceptStep_invBusy h
  | reject sid uid d now =>
    rw [step_reject_eq]
    exact rejectStep_invBusy h
  | endCall sid uid channelId now =>
    rw [step_endCall_eq]
    exact endStep_invBusy h
  | requestOffer sid uid channelId =>
    rw [step_requestOffer_eq, requestOfferStep_state]
    exact h
  | ice sid uid channelId fromUserId candPresent =>
    rw [step_ice_eq, iceStep_state]
    exact h
  | timerFire channelId now =>
    rw [step_timerFire_eq]
    exact timerFireStep_invBusy h
  | disconnect uid sid =>
    rw [step_disconnect_eq]
    exact disconnectStep_invBusy h

/-! ### Reachability -/

theorem runFrom_pres {db : Db} {P : ServerState → Prop}
    (hstep : ∀ s a, P s → P (step db s a).1) :
    ∀ (acts : List Action) (s : ServerState), P s → P (runFrom db s acts).1 := by
  intro acts
  induction acts with
  | nil => exact fun s h => h
  | cons a rest ih => exact fun s h => ih _ (hstep s a h)

theorem initialState_invMain : InvMain initialState := by
  intro ch
  refine ⟨?_, ?_, ?_⟩ <;> simp [initialState, mget]

theorem initialState_invBusy : InvBusy initialState := by
  intro ch1 c1 ch2 c2 h1
  simp [initialState, mget] at h1

theorem reachable_invMain {db : Db} {s : ServerState} (h : Reachable db s) :
    InvMain s := by
  obtain ⟨acts, rfl⟩ := h
  exact runFrom_pres (fun s a => step_invMain db s a) acts initialState
    initialState_invMain

theorem reachable_invBusy {db : Db} {s : ServerState} (h : Reachable db s) :
    InvBusy s := by
  obtain ⟨acts, rfl⟩ := h
  exact runFrom_pres (fun s a => step_invBusy db s a) acts initialState
    initialState_invBusy

/-! ### Step-level emission facts -/

theorem step_no_emit (db : Db) (s : ServerState) (a : Action) (ch : ChannelId)
    (h : ch ∈ s.callInviteSentForChannel ∨ ch ∈ s.endedOrRejectedChannels) :
    relayCount (step db s a).2 ch = 0 ∧
    pushIncomingCount (step db s a).2 ch = 0 := by
  cases a with
  | connect uid sid =>
    rw [step_connect_eq]
    exact ⟨(connectStep_counts s uid sid ch).1,
      (connectStep_counts s uid sid ch).2.1⟩
  | invite sid uid d now =>
    rw [step_invite_eq]
    exact inviteStep_no_emit db s sid uid d now ch h
  | accept sid uid d now =>
    rw [step_accept_eq]
    exact ⟨(acceptStep_counts s sid uid d now ch).1,
      (acceptStep_counts s sid uid d now ch).2.1⟩
  | reject sid uid d now =>
    rw [step_reject_eq]
    exact ⟨(rejectStep_counts s sid uid d now ch).1,
      (rejectStep_counts s sid uid d now ch).2.1⟩
  | endCall sid uid channelId now =>
    rw [step_endCall_eq]
    exact ⟨(endStep_counts s sid uid channelId now ch).1,
      (endStep_counts s sid uid channelId now ch).2.1⟩
  | requestOffer sid uid channelId =>
    rw [step_requestOffer_eq]
    exact ⟨(requestOfferStep_counts s sid uid channelId ch).1,
      (requestOfferStep_counts s sid uid channelId ch).2.1⟩
  | ice sid uid channelId fromUserId candPresent =>
    rw [step_ice_eq]
    exact ⟨(iceStep_counts s sid uid channelId fromUserId candPresent ch).1,
      (iceStep_counts s sid uid channelId fromUserId candPresent ch).2.1⟩
  | timerFire channelId now =>
    rw [step_timerFire_eq]
    exact timerFireStep_counts s channelId now ch
  | disconnect uid sid =>
    rw [step_disconnect_eq]
    exact ⟨(disconnectStep_counts s uid sid ch).1,
      (disconnectStep_counts s uid sid ch).2.1⟩

theorem step_counts_le (db : Db) (s : ServerState) (a : Action)
    (ch : ChannelId) :
    relayCount (step db s a).2 ch ≤ 1 ∧
    pushIncomingCount (step db s a).2 ch ≤ 1 := by
  cases a with
  | invite sid uid d now =>
    rw [step_invite_eq]
    exact ⟨(inviteStep_counts_le db s sid uid d now ch).1,
      (inviteStep_counts_le db s sid uid d now ch).2.1⟩
  | connect uid sid =>
    rw [step_connect_eq]
    rw [(connectStep_counts s uid sid ch).1, (connectStep_counts s uid sid ch).2.1]
    omega
  | accept sid uid d now =>
    rw [step_accept_eq]
    rw [(acceptStep_counts s sid uid d now ch).1,
      (acceptStep_counts s sid uid d now ch).2.1]
    omega
  | reject sid uid d now =>
    rw [step_reject_eq]
    rw [(rejectStep_counts s sid uid d now ch).1,
      (rejectStep_counts s sid uid d now ch).2.1]
    omega
  | endCall sid uid channelId now =>
    rw [step_endCall_eq]
    rw [(endStep_counts s sid uid channelId now ch).1,
      (endStep_counts s sid uid channelId now ch).2.1]
    omega
  | requestOffer sid uid channelId =>
    rw [step_requestOffer_eq]
    rw [(requestOfferStep_counts s sid uid channelId ch).1,
      (requestOfferStep_counts s sid uid channelId ch).2.1]
    omega
  | ice sid uid channelId fromUserId candPresent =>
    rw [step_ice_eq]
    rw [(iceStep_counts s sid uid channelId fromUserId candPresent ch).1,
      (iceStep_counts s sid uid channelId fromUserId candPresent ch).2.1]
    omega
  | timerFire channelId now =>
    rw [step_timerFire_eq]
    rw [(timerFireStep_counts s channelId now ch).1,
      (timerFireStep_counts s channelId now ch).2]
    omega
  | disconnect uid sid =>
    rw [step_disconnect_eq]
    rw [(disconnectStep_counts s uid sid ch).1,
      (disconnectStep_counts s uid sid ch).2.1]
    omega

theorem step_marker_after (db : Db) (s : ServerState) (a : Action)
    (ch : ChannelId)
    (h : 1 ≤ relayCount (step db s a).2 ch +
      pushIncomingCount (step db s a).2 ch) :
    ch ∈ (step db s a).1.callInviteSentForChannel := by
  cases a with
  | invite sid uid d now =>
    rw [step_invite_eq] at h ⊢
    exact inviteStep_marker_after db s sid uid d now ch h
  | connect uid sid =>
    rw [step_connect_eq] at h
    rw [(connectStep_counts s uid sid ch).1,
      (connectStep_counts s uid sid ch).2.1] at h
    omega
  | accept sid uid d now =>
    rw [step_accept_eq] at h
    rw [(acceptStep_counts s sid uid d now ch).1,
      (acceptStep_counts s sid uid d now ch).2.1] at h
    omega
  | reject sid uid d now =>
    rw [step_reject_eq] at h
    rw [(rejectStep_counts s sid uid d now ch).1,
      (rejectStep_counts s sid uid d now ch).2.1] at h
    omega
  | endCall sid uid channelId now =>
    rw [step_endCall_eq] at h
    rw [(endStep_counts s sid uid channelId now ch).1,
      (endStep_counts s sid uid channelId now ch).2.1] at h
    omega
  | requestOffer sid uid channelId =>
    rw [step_requestOffer_eq] at h
    rw [(requestOfferStep_counts s sid uid channelId ch).1,
      (requestOfferStep_counts s sid uid channelId ch).2.1] at h
    omega
  | ice sid uid channelId fromUserId candPresent =>
    rw [step_ice_eq] at h
    rw [(iceStep_counts s sid uid channelId fromUserId candPresent ch).1,
      (iceStep_counts s sid uid channelId fromUserId candPresent ch).2.1] at h
    omega
  | timerFire channelId now =>
    rw [step_timerFire_eq] at h
    rw [(timerFireStep_counts s channelId now ch).1,
      (timerFireStep_counts s channelId now ch).2] at h
    omega
  | disconnect uid sid =>
    rw [step_disconnect_eq] at h
    rw [(disconnectStep_counts s uid sid ch).1,
      (disconnectStep_counts s uid sid ch).2.1] at h
    omega

/-! ### Trace-level dedup bound -/

theorem runFrom_relay_bound (db : Db) (ch : ChannelId) :
    ∀ (acts : List Action) (s : ServerState),
      ((ch ∈ s.callInviteSentForChannel ∨ ch ∈ s.endedOrRejectedChannels) →
        relayCount (runFrom db s acts).2 ch = 0 ∧
        pushIncomingCount (runFrom db s acts).2 ch = 0) ∧
      relayCount (runFrom db s acts).2 ch ≤ 1 ∧
      pushIncomingCount (runFrom db s acts).2 ch ≤ 1 := by
  intro acts
  induction acts with
  | nil =>
    intro s
    simp [runFrom, relayCount, pushIncomingCount]
  | cons a rest ih =>
    intro s
    have hevs : (runFrom db s (a :: rest)).2
        = (step db s a).2 ++ (runFrom db (step db s a).1 rest).2 := rfl
    simp only [hevs, relayCount_append, pushIncomingCount_append]
    obtain ⟨ihA, ihB1, ihB2⟩ := ih (step db s a).1
    refine ⟨?_, ?_, ?_⟩
    · intro hmot
      obtain ⟨hz1, hz2⟩ := step_no_emit db s a ch hmot
      obtain ⟨hz3, hz4⟩ := ihA (step_mot_mono db s a hmot)
      omega
    · by_cases hge : 1 ≤ relayCount (step db s a).2 ch +
        pushIncomingCount (step db s a).2 ch
      · have hmark := step_marker_after db s a ch hge
        obtain ⟨hz3, hz4⟩ := ihA (Or.inl hmark)
        have := (step_counts_le db s a ch).1
        omega
      · have h1 := (step_counts_le db s a ch).1
        omega
    · by_cases hge : 1 ≤ relayCount (step db s a).2 ch +
        pushIncomingCount (step db s a).2 ch
      · have hmark := step_marker_after db s a ch hge
        obtain ⟨hz3, hz4⟩ := ihA (Or.inl hmark)
        have := (step_counts_le db s a ch).2
        omega
      · have h2 := (step_counts_le db s a ch).2
        omega

/-! ### Ring-timer bookkeeping lemmas -/

theorem disconnectStep_history (s : ServerState) (uid : UserId)
    (sid : SocketId) : (disconnectStep s uid sid).1.callHistory =
      s.callHistory := by
  unfold disconnectStep
  try dsimp only
  exact foldl_cleanup_pres (P := fun acc => acc.1.callHistory = s.callHistory)
    (fun acc e hp => (cleanupCall_history _ _ _).trans hp) _ _ rfl

theorem disconnectStep_activeUsers (s : ServerState) (uid : UserId)
    (sid : SocketId) :
    (disconnectStep s uid sid).1.activeUsers = mdel s.activeUsers uid := by
  unfold disconnectStep
  try dsimp only
  exact foldl_cleanup_activeUsers _ _

theorem inviteStep_timer_none {db : Db} {s : ServerState} {sid : SocketId}
    {uid : UserId} {d : InviteData} {now : Nat} {ch : ChannelId}
    (htim : mget s.callRingTimeouts ch = none)
    (hmot : ch ∈ s.callInviteSentForChannel ∨
      ch ∈ s.endedOrRejectedChannels) :
    mget (inviteStep db s sid uid d now).1.callRingTimeouts ch = none := by
  unfold inviteStep
  try dsimp only
  repeat' split
  all_goals try exact htim
  all_goals
    have hne : d.channelId ≠ ch := by
      rintro rfl
      rcases hmot with hm | hm
      · exact absurd hm (by assumption)
      · exact absurd hm (by assumption)
  all_goals rw [mget_mset_ne _ _ hne]
  all_goals exact htim

theorem acceptStep_timer_none {s : ServerState} {sid : SocketId}
    {uid : UserId} {d : AcceptData} {now : Nat} {ch : ChannelId}
    (htim : mget s.callRingTimeouts ch = none) :
    mget (acceptStep s sid uid d now).1.callRingTimeouts ch = none := by
  unfold acceptStep
  try dsimp only
  repeat' split
  all_goals first
    | exact htim
    | exact mget_mdel_none htim

theorem rejectStep_timer_none {s : ServerState} {sid : SocketId}
    {uid : UserId} {d : RejectData} {now : Nat} {ch : ChannelId}
    (htim : mget s.callRingTimeouts ch = none) :
    mget (rejectStep s sid uid d now).1.callRingTimeouts ch = none := by
  unfold rejectStep
  try dsimp only
  repeat' split
  all_goals first
    | exact htim
    | exact mget_mdel_none htim

theorem endStep_timer_none {s : ServerState} {sid : SocketId} {uid : UserId}
    {channelId : ChannelId} {now : Nat} {ch : ChannelId}
    (htim : mget s.callRingTimeouts ch = none) :
    mget (endStep s sid uid channelId now).1.callRingTimeouts ch = none := by
  unfold endStep
  try dsimp only
  repeat' split
  all_goals first
    | exact htim
    | exact mget_mdel_none htim

theorem timerFireStep_timer_none {s : ServerState} {ch' : ChannelId}
    {now : Nat} {ch : ChannelId}
    (htim : mget s.callRingTimeouts ch = none) :
    mget (timerFireStep s ch' now).1.callRingTimeouts ch = none := by
  unfold timerFireStep
  try dsimp only
  repeat' split
  all_goals first
    | exact htim
    | exact mget_mdel_none htim

theorem step_timer_none (db : Db) (s : ServerState) (a : Action)
    {ch : ChannelId} (htim : mget s.callRingTimeouts ch = none)
    (hmot : ch ∈ s.callInviteSentForChannel ∨
      ch ∈ s.endedOrRejectedChannels) :
    mget (step db s a).1.callRingTimeouts ch = none := by
  cases a with
  | connect uid sid => exact htim
  | invite sid uid d now =>
    rw [step_invite_eq]
    exact inviteStep_timer_none htim hmot
  | accept sid uid d now =>
    rw [step_accept_eq]
    exact acceptStep_timer_none htim
  | reject sid uid d now =>
    rw [step_reject_eq]
    exact rejectStep_timer_none htim
  | endCall sid uid channelId now =>
    rw [step_endCall_eq]
    exact endStep_timer_none htim
  | requestOffer sid uid channelId =>
    rw [step_requestOffer_eq, requestOfferStep_state]
    exact htim
  | ice sid uid channelId fromUserId candPresent =>
    rw [step_ice_eq, iceStep_state]
    exact htim
  | timerFire channelId now =>
    rw [step_timerFire_eq]
    exact timerFireStep_timer_none htim
  | disconnect uid sid =>
    rw [step_disconnect_eq]
    unfold disconnectStep
    try dsimp only
    exact foldl_cleanup_pres
      (P := fun acc => mget acc.1.callRingTimeouts ch = none)
      (fun acc e hp => cleanupCall_timer_none hp) _ _ htim

theorem rejectStep_missed_eq (s : ServerState) (sid : SocketId) (uid : UserId)
    (d : RejectData) (now : Nat) (ch : ChannelId) :
    missedRecCount (rejectStep s sid uid d now).1.callHistory ch =
      missedRecCount s.callHistory ch := by
  unfold rejectStep
  try dsimp only
  repeat' split
  all_goals
    simp [missedRecCount, List.filter_append, List.filter_cons,
      List.filter_nil]

theorem endStep_missed_eq (s : ServerState) (sid : SocketId) (uid : UserId)
    (channelId : ChannelId) (now : Nat) (ch : ChannelId) :
    missedRecCount (endStep s sid uid channelId now).1.callHistory ch =
      missedRecCount s.callHistory ch := by
  unfold endStep
  try dsimp only
  repeat' split
  all_goals
    simp [missedRecCount, List.filter_append, List.filter_cons,
      List.filter_nil]

theorem timerFireStep_missed_eq {s : ServerState} {ch' : ChannelId}
    {now : Nat} {ch : ChannelId}
    (h : mget s.callRingTimeouts ch' = none ∨ ch ≠ ch') :
    missedRecCount (timerFireStep s ch' now).1.callHistory ch =
      missedRecCount s.callHistory ch := by
  unfold timerFireStep
  try dsimp only
  repeat' split
  all_goals try rfl
  all_goals rcases h with h | h
  all_goals first
    | (simp [missedRecCount, List.filter_append, List.filter_cons,
        List.filter_nil, Ne.symm h]; done)
    | simp_all

theorem step_missed_eq (db : Db) (s : ServerState) (a : Action)
    {ch : ChannelId} (htim : mget s.callRingTimeouts ch = none) :
    missedRecCount (step db s a).1.callHistory ch =
      missedRecCount s.callHistory ch := by
  cases a with
  | connect uid sid => rfl
  | invite sid uid d now =>
    rw [step_invite_eq, (inviteStep_frame db s sid uid d now).2.1]
  | accept sid uid d now =>
    rw [step_accept_eq, (acceptStep_frame s sid uid d now).2.2.1]
  | reject sid uid d now =>
    rw [step_reject_eq]
    exact rejectStep_missed_eq s sid uid d now ch
  | endCall sid uid channelId now =>
    rw [step_endCall_eq]
    exact endStep_missed_eq s sid uid channelId now ch
  | requestOffer sid uid channelId =>
    rw [step_requestOffer_eq, requestOfferStep_state]
  | ice sid uid channelId fromUserId candPresent =>
    rw [step_ice_eq, iceStep_state]
  | timerFire channelId now =>
    rw [step_timerFire_eq]
    refine timerFireStep_missed_eq ?_
    by_cases hc : ch = channelId
    · subst hc
      exact Or.inl htim
    · exact Or.inr hc
  | disconnect uid sid =>
    rw [step_disconnect_eq, disconnectStep_history]

/-- After a state where the ring timer for `ch` is gone and the channel is
marked or terminal, no run can ever append another `missed` record for it. -/
theorem runFrom_no_missed (db : Db) (ch : ChannelId) :
    ∀ (acts : List Action) (s : ServerState),
      mget s.callRingTimeouts ch = none →
      (ch ∈ s.callInviteSentForChannel ∨ ch ∈ s.endedOrRejectedChannels) →
      missedRecCount (runFrom db s acts).1.callHistory ch =
        missedRecCount s.callHistory ch := by
  intro acts
  induction acts with
  | nil => intro s _ _; rfl
  | cons a rest ih =>
    intro s htim hmot
    have h1 : missedRecCount (runFrom db (step db s a).1 rest).1.callHistory ch
        = missedRecCount (step db s a).1.callHistory ch :=
      ih _ (step_timer_none db s a htim hmot) (step_mot_mono db s a hmot)
    have h2 := step_missed_eq db s a htim
    exact h1.trans h2

theorem timerFireStep_missed_fire {s : ServerState} {ch : ChannelId}
    (now : Nat) {t : TimerInfo}
    (hentry : mget s.callRingTimeouts ch = some t) :
    missedRecCount (timerFireStep s ch now).1.callHistory ch =
      missedRecCount s.callHistory ch + 1 ∧
    ch ∈ (timerFireStep s ch now).1.endedOrRejectedChannels := by
  unfold timerFireStep
  rw [hentry]
  try dsimp only
  repeat' split
  all_goals refine ⟨?_, self_mem_sadd _ _⟩
  all_goals
    simp [missedRecCount, List.filter_append, List.filter_cons,
      List.filter_nil]

theorem step_missed_bound (db : Db) (s : ServerState) (a : Action)
    (ch : ChannelId) (hInv : InvMain s)
    (h1 : missedRecCount s.callHistory ch ≤ 1)
    (h2 : 1 ≤ missedRecCount s.callHistory ch →
      ch ∈ s.endedOrRejectedChannels) :
    missedRecCount (step db s a).1.callHistory ch ≤ 1 ∧
    (1 ≤ missedRecCount (step db s a).1.callHistory ch →
      ch ∈ (step db s a).1.endedOrRejectedChannels) := by
  by_cases hterm : ch ∈ s.endedOrRejectedChannels
  · have htim := (invMain_terminal_dead hInv hterm).2
    rw [step_missed_eq db s a htim]
    exact ⟨h1, fun _ => step_terminal_mono db s a hterm⟩
  · have hc0 : missedRecCount s.callHistory ch = 0 := by
      by_contra hc
      exact hterm (h2 (by omega))
    cases a with
    | connect uid sid =>
      refine ⟨?_, ?_⟩ <;> rw [show (step db s (Action.connect uid sid)).1.callHistory = s.callHistory from rfl]
      · omega
      · intro hx; omega
    | invite sid uid d now =>
      rw [step_invite_eq]
      refine ⟨?_, ?_⟩ <;> rw [(inviteStep_frame db s sid uid d now).2.1]
      · omega
      · intro hx; omega
    | accept sid uid d now =>
      rw [step_accept_eq]
      refine ⟨?_, ?_⟩ <;> rw [(acceptStep_frame s sid uid d now).2.2.1]
      · omega
      · intro hx; omega
    | reject sid uid d now =>
      rw [step_reject_eq]
      refine ⟨?_, ?_⟩ <;> rw [rejectStep_missed_eq]
      · omega
      · intro hx; omega
    | endCall sid uid channelId now =>
      rw [step_endCall_eq]
      refine ⟨?_, ?_⟩ <;> rw [endStep_missed_eq]
      · omega
      · intro hx; omega
    | requestOffer sid uid channelId =>
      rw [step_requestOffer_eq]
      refine ⟨?_, ?_⟩ <;> rw [requestOfferStep_state]
      · omega
      · intro hx; omega
    | ice sid uid channelId fromUserId candPresent =>
      rw [step_ice_eq]
      refine ⟨?_, ?_⟩ <;> rw [iceStep_state]
      · omega
      · intro hx; omega
    | disconnect uid sid =>
      rw [step_disconnect_eq]
      refine ⟨?_, ?_⟩ <;> rw [disconnectStep_history]
      · omega
      · intro hx; omega
    | timerFire channelId now =>
      rw [step_timerFire_eq]
      by_cases hcc : ch = channelId
      · subst hcc
        cases hopt : mget s.callRingTimeouts ch with
        | none =>
          rw [timerFireStep_missed_eq (Or.inl hopt)]
          exact ⟨by omega, fun hx => absurd hx (by omega)⟩
        | some t =>
          obtain ⟨hcount, hmem⟩ := timerFireStep_missed_fire now hopt
          rw [hcount, hc0]
          exact ⟨by omega, fun _ => hmem⟩
      · rw [timerFireStep_missed_eq (Or.inr hcc)]
        exact ⟨by omega, fun hx => absurd hx (by omega)⟩

theorem runFrom_missed_le_one (db : Db) (ch : ChannelId) :
    ∀ (acts : List Action) (s : ServerState), InvMain s →
      missedRecCount s.callHistory ch ≤ 1 →
      (1 ≤ missedRecCount s.callHistory ch →
        ch ∈ s.endedOrRejectedChannels) →
      missedRecCount (runFrom db s acts).1.callHistory ch ≤ 1 := by
  intro acts
  induction acts with
  | nil => exact fun s _ h1 _ => h1
  | cons a rest ih =>
    intro s hInv h1 h2
    obtain ⟨h1', h2'⟩ := step_missed_bound db s a ch hInv h1 h2
    exact ih _ (step_invMain db s a hInv) h1' h2'

/-- Over any whole run of the engine, at most one `missed` record is ever
written per channel. -/
theorem runFrom_missed_le_one_init (db : Db) (acts : List Action)
    (ch : ChannelId) :
    missedRecCount (runFrom db initialState acts).1.callHistory ch ≤ 1 := by
  refine runFrom_missed_le_one db ch acts initialState initialState_invMain ?_ ?_
  · simp [initialState, missedRecCount]
  · intro hx
    simp [initialState, missedRecCount] at hx

/-- Missed-call pushes require a live ring-timer entry; a channel whose timer
entry is gone can never get one in a single step. -/
theorem step_no_missedpush (db : Db) (s : ServerState) (a : Action)
    (ch : ChannelId) (htim : mget s.callRingTimeouts ch = none) :
    pushMissedCount (step db s a).2 ch = 0 := by
  cases a with
  | connect uid sid =>
    rw [step_connect_eq]
    exact (connectStep_counts s uid sid ch).2.2
  | invite sid uid d now =>
    rw [step_invite_eq]
    exact (inviteStep_counts_le db s sid uid d now ch).2.2
  | accept sid uid d now =>
    rw [step_accept_eq]
    exact (acceptStep_counts s sid uid d now ch).2.2
  | reject sid uid d now =>
    rw [step_reject_eq]
    exact (rejectStep_counts s sid uid d now ch).2.2
  | endCall sid uid channelId now =>
    rw [step_endCall_eq]
    exact (endStep_counts s sid uid channelId now ch).2.2
  | requestOffer sid uid channelId =>
    rw [step_requestOffer_eq]
    exact (requestOfferStep_counts s sid uid channelId ch).2.2
  | ice sid uid channelId fromUserId candPresent =>
    rw [step_ice_eq]
    exact (iceStep_counts s sid uid channelId fromUserId candPresent ch).2.2
  | timerFire channelId now =>
    rw [step_timerFire_eq]
    refine timerFireStep_missedpush s channelId now ch ?_
    by_cases hcc : ch = channelId
    · subst hcc
      exact Or.inl htim
    · exact Or.inr hcc
  | disconnect uid sid =>
    rw [step_disconnect_eq]
    exact (disconnectStep_counts s uid sid ch).2.2

/-! ### Concrete scenario fixtures -/

/-- Two active users; both have device tokens. -/
def dbAB : Db := [("a", { isActive := true, fcmToken := some "tokA" }),
                  ("b", { isActive := true, fcmToken := some "tokB" })]

/-- Two active users; the callee `b` has no device token. -/
def dbNoTok : Db := [("a", { isActive := true, fcmToken := some "tokA" }),
                     ("b", { isActive := true, fcmToken := none })]

/-- A well-formed invite from `a` to `b` on channel `ch`. -/
def inviteAB : InviteData :=
  { channelId := "ch", callType := some "audio", callerId := "a",
    callerName := some "Alice", calleeId := "b",
    offer := some { rtype := some "offer", rsdp := some "sdp1" } }

/-- Both users connected, then the invite (at t = 100 ms). -/
def actsInvite : List Action :=
  [Action.connect "a" "sa", Action.connect "b" "sb",
   Action.invite "sa" "a" inviteAB 100]

/-! ### C9 -/

/-- C9 counterexample: after user `u` registers connection `s1` and then a
newer connection `s2`, the disconnect of the superseded `s1` still evicts the
mapping, leaving no presence entry for `u` — the claim says the removal
happens only when the stored connection is the one being removed. -/
theorem C9_counterexample :
    mget (runFrom [] initialState
      [Action.connect "u" "s1", Action.connect "u" "s2"]).1.activeUsers "u" =
      some "s2" ∧
    mget (runFrom [] initialState
      [Action.connect "u" "s1", Action.connect "u" "s2",
       Action.disconnect "u" "s1"]).1.activeUsers "u" = none := by
  decide

/-- C9 (amended): the disconnect handler removes the disconnecting user's
presence mapping unconditionally (`activeUsers.delete(socket.userId)`), with
no check that the stored connection is the one being removed, so a stale
disconnect of a superseded connection evicts the newer connection. -/
theorem C9_disconnect_unregisters_unconditionally (s : ServerState)
    (uid : UserId) (sid : SocketId) :
    mget (disconnectStep s uid sid).1.activeUsers uid = none := by
  rw [disconnectStep_activeUsers]
  exact mget_mdel_self _ _

/-! ### C10 -/

/-- C10: a `call-reject` with truthy `channelId` and `callerId` payload fields
adds the channel to the ended-or-rejected set permanently (no later action
ever removes it) and deletes any in-flight session for it, with no
authorization or existence check: the issuing user `uid` is arbitrary and no
hypothesis relates it (or the payload `callerId`) to the call, nor does a
session have to exist. -/
theorem C10_reject_unconditional_terminal (db : Db) (s : ServerState)
    (sid : SocketId) (uid : UserId) (d : RejectData) (now : Nat)
    (hch : d.channelId ≠ "") (hcaller : d.callerId ≠ "") :
    d.channelId ∈ (rejectStep s sid uid d now).1.endedOrRejectedChannels ∧
    mget (rejectStep s sid uid d now).1.activeCalls d.channelId = none ∧
    (∀ acts : List Action, d.channelId ∈
      (runFrom db (rejectStep s sid uid d now).1 acts).1.endedOrRejectedChannels) := by
  have hkey : d.channelId ∈
      (rejectStep s sid uid d now).1.endedOrRejectedChannels ∧
      mget (rejectStep s sid uid d now).1.activeCalls d.channelId = none := by
    unfold rejectStep
    rw [if_neg (by simp [hch, hcaller])]
    try dsimp only
    repeat' split
    all_goals exact ⟨self_mem_sadd _ _, mget_mdel_self _ _⟩
  refine ⟨hkey.1, hkey.2, fun acts => ?_⟩
  exact runFrom_pres (fun s' a => step_terminal_mono db s' a) acts _ hkey.1

/-- C10 witness: a stranger `x` (neither caller nor callee of anything, on a
fresh connection) rejects channel `nochan`, for which no session exists; the
channel becomes terminal, stays terminal across a later action, and has no
session. -/
theorem C10_witness :
    "nochan" ∈ (rejectStep (runFrom dbAB initialState actsInvite).1 "sx" "x"
      { channelId := "nochan", callerId := "a" } 500).1.endedOrRejectedChannels ∧
    mget (rejectStep (runFrom dbAB initialState actsInvite).1 "sx" "x"
      { channelId := "nochan", callerId := "a" } 500).1.activeCalls "nochan" =
      none ∧
    "nochan" ∈ (runFrom dbAB (rejectStep
      (runFrom dbAB initialState actsInvite).1 "sx" "x"
      { channelId := "nochan", callerId := "a" } 500).1
      [Action.endCall "sa" "a" "nochan" 600]).1.endedOrRejectedChannels := by
  have h := C10_reject_unconditional_terminal dbAB
    (runFrom dbAB initialState actsInvite).1 "sx" "x"
    { channelId := "nochan", callerId := "a" } 500 (by decide) (by decide)
  exact ⟨h.1, h.2.1, h.2.2 [Action.endCall "sa" "a" "nochan" 600]⟩

/-! ### C8 -/

/-- C8 counterexample: caller `a` disconnects during an in-flight call on
channel `ch`; the remaining peer is notified and the channel is marked
terminal, but — contrary to the claim that cleanup is identical to `end` —
no history record at all is written. -/
theorem C8_counterexample :
    (runFrom dbAB initialState
      (actsInvite ++ [Action.disconnect "a" "sa"])).1.callHistory = [] ∧
    "ch" ∈ (runFrom dbAB initialState
      (actsInvite ++ [Action.disconnect "a" "sa"])).1.endedOrRejectedChannels ∧
    Ev.callEnded "sb" "ch" ∈ (runFrom dbAB initialState
      (actsInvite ++ [Action.disconnect "a" "sa"])).2 := by
  decide

/-- C8 (amended): when a participant of an in-flight session disconnects, the
remaining peer is notified with `call-ended` (when its connection is
registered), the ring timer is cancelled, the channel is marked terminal and
the session removed — but, unlike `end`, no history record is written. -/
theorem C8_disconnect_cleanup (s : ServerState) (uid : UserId)
    (sid : SocketId) (ch : ChannelId) (call : CallInfo)
    (hcall : mget s.activeCalls ch = some call)
    (hpart : call.callerId = uid ∨ call.calleeId = uid) :
    (disconnectStep s uid sid).1.callHistory = s.callHistory ∧
    ch ∈ (disconnectStep s uid sid).1.endedOrRejectedChannels ∧
    mget (disconnectStep s uid sid).1.activeCalls ch = none ∧
    mget (disconnectStep s uid sid).1.callRingTimeouts ch = none ∧
    (∀ osid, mget (mdel s.activeUsers uid)
        (if call.callerId = uid then call.calleeId else call.callerId) =
        some osid →
      Ev.callEnded osid ch ∈ (disconnectStep s uid sid).2) := by
  have hmem : (ch, call) ∈ s.activeCalls := mget_mem hcall
  have hentry := foldl_cleanup_entry s.activeCalls
    ({ s with activeUsers := mdel s.activeUsers uid }, ([] : List Ev))
    ch call hmem hpart
  refine ⟨disconnectStep_history s uid sid, hentry.1, hentry.2.1,
    hentry.2.2.1, fun osid hosid => ?_⟩
  exact foldl_cleanup_event s.activeCalls
    ({ s with activeUsers := mdel s.activeUsers uid }, ([] : List Ev))
    ch call osid hmem hpart hosid

/-- C8 witness: in the concrete disconnect scenario the cleanup facts hold;
the remaining peer `b` (connection `sb`) is notified. -/
theorem C8_witness :
    ((runFrom dbAB initialState
      (actsInvite ++ [Action.disconnect "a" "sa"])).1.callHistory =
      (runFrom dbAB initialState actsInvite).1.callHistory) ∧
    "ch" ∈ (runFrom dbAB initialState
      (actsInvite ++ [Action.disconnect "a" "sa"])).1.endedOrRejectedChannels ∧
    Ev.callEnded "sb" "ch" ∈
      (disconnectStep (runFrom dbAB initialState actsInvite).1 "a" "sa").2 := by
  have h := C8_disconnect_cleanup (runFrom dbAB initialState actsInvite).1
    "a" "sa" "ch"
    { callerId := "a", calleeId := "b", callerName := "Alice",
      callType := "audio", inviteSentAt := 100,
      offer := { otype := "offer", osdp := "sdp1" }, acceptedAt := none }
    (by decide) (Or.inl rfl)
  refine ⟨?_, ?_, ?_⟩
  · have hh := h.1
    exact hh.trans (by decide)
  · exact h.2.1
  · exact h.2.2.2.2 "sb" (by decide)
  
/-! ### C6 -/

/-- The session created by the concrete invite `inviteAB` (never accepted). -/
def callAB : CallInfo :=
  { callerId := "a", calleeId := "b", callerName := "Alice",
    callType := "audio", inviteSentAt := 100,
    offer := { otype := "offer", osdp := "sdp1" }, acceptedAt := none }

/-- C6 counterexample: ending a call that was never accepted (the stored
session still has `acceptedAt = none`) writes a history record whose outcome
is `answered` with zero duration — the claim says the outcome is `answered`
only if the session was actually accepted. -/
theorem C6_counterexample :
    mget (runFrom dbAB initialState actsInvite).1.activeCalls "ch" =
      some callAB ∧
    callAB.acceptedAt = none ∧
    (runFrom dbAB initialState
      (actsInvite ++ [Action.endCall "sa" "a" "ch" 1100])).1.callHistory =
      [{ callerId := "a", calleeId := "b", channelId := "ch",
         callType := "audio", status := "answered", startedAt := 100,
         endedAt := 1100, durationSeconds := 0 }] := by
  decide

/-- C6 (amended): for every `end(channelId)` with an in-flight session, the
initiating connection is sent `call-ended`, the other peer is sent
`call-ended` when a connection is registered for it, the channel is marked
terminal and the session removed, and exactly one history record is appended
whose duration is the rounded seconds from accepted time to now (zero if
never accepted) and whose outcome is always `answered`, even when the
session was never accepted. -/
theorem C6_end_call_spec (s : ServerState) (sid : SocketId) (uid : UserId)
    (ch : ChannelId) (now : Nat) (call : CallInfo) (hch : ch ≠ "")
    (hcall : mget s.activeCalls ch = some call) :
    Ev.callEnded sid ch ∈ (endStep s sid uid ch now).2 ∧
    (∀ osid, mget s.activeUsers
        (if call.callerId = uid then call.calleeId else call.callerId) =
        some osid → Ev.callEnded osid ch ∈ (endStep s sid uid ch now).2) ∧
    ch ∈ (endStep s sid uid ch now).1.endedOrRejectedChannels ∧
    mget (endStep s sid uid ch now).1.activeCalls ch = none ∧
    mget (endStep s sid uid ch now).1.callRingTimeouts ch = none ∧
    (endStep s sid uid ch now).1.callHistory = s.callHistory ++
      [{ callerId := call.callerId, calleeId := call.calleeId,
         channelId := ch, callType := jsOrS call.callType "audio",
         status := "answered",
         startedAt := match call.acceptedAt with
           | some a => a
           | none => call.inviteSentAt,
         endedAt := now,
         durationSeconds := match call.acceptedAt with
           | some a => (now - a + 500) / 1000
           | none => 0 }] := by
  unfold endStep
  rw [if_neg hch, hcall]
  try dsimp only
  cases hon : mget s.activeUsers
      (if call.callerId = uid then call.calleeId else call.callerId) with
  | none =>
    refine ⟨by simp, ?_, self_mem_sadd _ _, mget_mdel_self _ _,
      mget_mdel_self _ _, rfl⟩
    intro osid hosid
    exact absurd hosid (by simp)
  | some osid0 =>
    refine ⟨by simp, ?_, self_mem_sadd _ _, mget_mdel_self _ _,
      mget_mdel_self _ _, rfl⟩
    intro osid hosid
    injection hosid with hosid
    subst hosid
    simp

/-- C6 witness: the amended statement applied to the concrete unaccepted
call: both connected parties receive `call-ended` and the appended record is
`answered` with zero duration. -/
theorem C6_witness :
    Ev.callEnded "sa" "ch" ∈
      (endStep (runFrom dbAB initialState actsInvite).1 "sa" "a" "ch" 1100).2 ∧
    Ev.callEnded "sb" "ch" ∈
      (endStep (runFrom dbAB initialState actsInvite).1 "sa" "a" "ch" 1100).2 ∧
    (endStep (runFrom dbAB initialState actsInvite).1 "sa" "a" "ch" 1100).1.callHistory =
      (runFrom dbAB initialState actsInvite).1.callHistory ++
      [{ callerId := "a", calleeId := "b", channelId := "ch",
         callType := "audio", status := "answered", startedAt := 100,
         endedAt := 1100, durationSeconds := 0 }] := by
  have h := C6_end_call_spec (runFrom dbAB initialState actsInvite).1
    "sa" "a" "ch" 1100 callAB (by decide) (by decide)
  refine ⟨h.1, ?_, ?_⟩
  · exact h.2.1 "sb" (by decide)
  · exact h.2.2.2.2.2.trans (by decide)

/-! ### C7 -/

/-- C7 counterexample: callee `b` accepts the in-flight call on `ch` naming
an offline `callerId` (`"zz"`); the session is discarded with no record at
that moment, but the ring timer is not cancelled on this path, so when it
fires a `missed` history record for the channel is written after all — the
claim says no record of any outcome is ever written. -/
theorem C7_counterexample :
    mget (runFrom dbAB initialState
      (actsInvite ++ [Action.accept "sb" "b"
        { channelId := "ch", callerId := "zz", answer := some "ans" }
        200])).1.activeCalls "ch" = none ∧
    (runFrom dbAB initialState
      (actsInvite ++ [Action.accept "sb" "b"
        { channelId := "ch", callerId := "zz", answer := some "ans" }
        200])).1.callHistory = [] ∧
    missedRecCount (runFrom dbAB initialState
      (actsInvite ++ [Action.accept "sb" "b"
        { channelId := "ch", callerId := "zz", answer := some "ans" } 200,
        Action.timerFire "ch" 180100])).1.callHistory "ch" = 1 := by
  decide

/-- C7 (amended): accepting an in-flight call whose payload `callerId` has no
live connection discards the CallSession and writes nothing at that moment
(the history and every other registry are untouched, and a `call-error`
"Caller is offline" is echoed) — but the ring timer entry is left in place,
so a `missed` record can still be written later when it fires. -/
theorem C7_accept_caller_offline (s : ServerState) (sid : SocketId)
    (uid : UserId) (d : AcceptData) (now : Nat) (call : CallInfo)
    (hch : d.channelId ≠ "") (hcaller : d.callerId ≠ "")
    (hans : truthy d.answer)
    (hcall : mget s.activeCalls d.channelId = some call)
    (hcallee : call.calleeId = uid)
    (hoff : mget s.activeUsers d.callerId = none) :
    acceptStep s sid uid d now =
      ({ s with activeCalls := mdel s.activeCalls d.channelId },
       [Ev.callError sid "Caller is offline"]) ∧
    mget (acceptStep s sid uid d now).1.activeCalls d.channelId = none ∧
    (acceptStep s sid uid d now).1.callHistory = s.callHistory ∧
    (acceptStep s sid uid d now).1.callRingTimeouts = s.callRingTimeouts := by
  have hkey : acceptStep s sid uid d now =
      ({ s with activeCalls := mdel s.activeCalls d.channelId },
       [Ev.callError sid "Caller is offline"]) := by
    have hc1 : ¬(d.channelId = "" ∨ d.callerId = "" ∨
        ¬ truthy d.answer = true) := by
      simp [hch, hcaller, hans]
    have hc2 : ¬(call.calleeId ≠ uid) := by simp [hcallee]
    unfold acceptStep
    rw [if_neg hc1, hcall]
    try dsimp only
    rw [if_neg hc2, hoff]
  refine ⟨hkey, ?_, ?_, ?_⟩ <;> rw [hkey]
  all_goals first
    | rfl
    | exact mget_mdel_self _ _

/-- C7 witness: the amended statement at the concrete scenario — `b` accepts
with offline payload caller `zz`; state changes only by dropping the session
and the ring timer survives. -/
theorem C7_witness :
    acceptStep (runFrom dbAB initialState actsInvite).1 "sb" "b"
      { channelId := "ch", callerId := "zz", answer := some "ans" } 200 =
      ({ (runFrom dbAB initialState actsInvite).1 with
          activeCalls := mdel
            (runFrom dbAB initialState actsInvite).1.activeCalls "ch" },
       [Ev.callError "sb" "Caller is offline"]) ∧
    (acceptStep (runFrom dbAB initialState actsInvite).1 "sb" "b"
      { channelId := "ch", callerId := "zz", answer := some "ans" }
      200).1.callRingTimeouts =
      (runFrom dbAB initialState actsInvite).1.callRingTimeouts := by
  have h := C7_accept_caller_offline (runFrom dbAB initialState actsInvite).1
    "sb" "b" { channelId := "ch", callerId := "zz", answer := some "ans" }
    200 callAB (by decide) (by decide) (by decide) (by decide) (by decide)
    (by decide)
  exact ⟨h.1, h.2.2.2⟩

/-! ### C2 -/

/-- C2 counterexample: a fully-guarded invite to an *offline* callee `b` (who
exists, is active and has a device token): the push notification is
dispatched and the invite-sent marker set, but no CallSession is created for
the channel — the claim says the session is created regardless of whether
the callee's connection is present. -/
theorem C2_counterexample :
    "ch" ∈ (runFrom dbAB initialState
      [Action.connect "a" "sa", Action.invite "sa" "a" inviteAB 100]).1.callInviteSentForChannel ∧
    pushIncomingCount (runFrom dbAB initialState
      [Action.connect "a" "sa", Action.invite "sa" "a" inviteAB 100]).2 "ch" = 1 ∧
    mget (runFrom dbAB initialState
      [Action.connect "a" "sa", Action.invite "sa" "a" inviteAB 100]).1.activeCalls "ch" = none ∧
    Ev.callUnavailable "sa" "ch" "b" ∈ (runFrom dbAB initialState
      [Action.connect "a" "sa", Action.invite "sa" "a" inviteAB 100]).2 := by
  decide

/-- Full characterization of a fully-guarded (successful) invite. -/
theorem inviteStep_success_spec (db : Db) (s : ServerState) (sid : SocketId)
    (uid : UserId) (d : InviteData) (now : Nat) (p : Offer) (callee : UserRec)
    (hch : d.channelId ≠ "") (hcr : d.callerId ≠ "") (hce : d.calleeId ≠ "")
    (hterm : d.channelId ∉ s.endedOrRejectedChannels)
    (hmark : d.channelId ∉ s.callInviteSentForChannel)
    (hid : jsTrim d.callerId = uid)
    (hself : jsTrim d.calleeId ≠ uid)
    (hoffer : normalizeOffer d.offer = some p)
    (hdb : mget db (jsTrim d.calleeId) = some callee)
    (hact : callee.isActive = true)
    (hbusy : ¬ isBusy s.activeCalls uid (jsTrim d.calleeId)) :
    d.channelId ∈ (inviteStep db s sid uid d now).1.callInviteSentForChannel ∧
    mget (inviteStep db s sid uid d now).1.callRingTimeouts d.channelId =
      some { deadline := now + RING_TIMEOUT_MS,
             calleeFcmToken := callee.fcmToken, capCallerId := uid,
             capCalleeId := jsTrim d.calleeId,
             capCallerName := jsOr d.callerName "",
             capCallType := d.callType.getD "audio" } ∧
    pushIncomingCount (inviteStep db s sid uid d now).2 d.channelId =
      (if truthy callee.fcmToken then 1 else 0) ∧
    (∀ csid, mget s.activeUsers (jsTrim d.calleeId) = some csid →
       mget (inviteStep db s sid uid d now).1.activeCalls d.channelId =
         some { callerId := uid, calleeId := jsTrim d.calleeId,
                callerName := jsOr d.callerName "",
                callType := d.callType.getD "audio", inviteSentAt := now,
                offer := p, acceptedAt := none } ∧
       Ev.callInviteRelay csid d.channelId uid (jsTrim d.calleeId) p ∈
         (inviteStep db s sid uid d now).2 ∧
       relayCount (inviteStep db s sid uid d now).2 d.channelId = 1) ∧
    (mget s.activeUsers (jsTrim d.calleeId) = none →
       (inviteStep db s sid uid d now).1.activeCalls = s.activeCalls ∧
       relayCount (inviteStep db s sid uid d now).2 d.channelId = 0 ∧
       Ev.callUnavailable sid d.channelId (jsTrim d.calleeId) ∈
         (inviteStep db s sid uid d now).2) := by
  have hc1 : ¬(d.channelId = "" ∨ d.callerId = "" ∨ d.calleeId = "") := by
    simp [hch, hcr, hce]
  have hc4 : ¬(jsTrim d.callerId ≠ uid) := by simp [hid]
  have hc5 : ¬(callee.isActive = false) := by simp [hact]
  unfold inviteStep
  rw [if_neg hc1, if_neg hterm, if_neg hmark, if_neg hc4, if_neg hself,
    hoffer]
  try dsimp only
  rw [hdb]
  try dsimp only
  rw [if_neg hc5, if_neg hbusy]
  try dsimp only
  cases hon : mget s.activeUsers (jsTrim d.calleeId) with
  | some csid0 =>
    refine ⟨self_mem_sadd _ _, mget_mset_self _ _ _, ?_, ?_, ?_⟩
    · by_cases htok : truthy callee.fcmToken <;>
        simp [htok, pushIncomingCount, List.filter_append, List.filter_cons,
          List.filter_nil]
    · intro csid hcsid
      injection hcsid with hcsid
      subst hcsid
      refine ⟨mget_mset_self _ _ _, ?_, ?_⟩
      · by_cases htok : truthy callee.fcmToken <;> simp [htok]
      · by_cases htok : truthy callee.fcmToken <;>
          simp [htok, relayCount, List.filter_append, List.filter_cons,
            List.filter_nil]
    · intro hnone
      exact absurd hnone (by simp)
  | none =>
    refine ⟨self_mem_sadd _ _, mget_mset_self _ _ _, ?_, ?_, ?_⟩
    · by_cases htok : truthy callee.fcmToken <;>
        simp [htok, pushIncomingCount, List.filter_append, List.filter_cons,
          List.filter_nil]
    · intro csid hcsid
      exact absurd hcsid (by simp)
    · intro hnone
      refine ⟨rfl, ?_, ?_⟩
      · by_cases htok : truthy callee.fcmToken <;>
          simp [htok, relayCount, List.filter_append, List.filter_cons,
            List.filter_nil]
      · by_cases htok : truthy callee.fcmToken <;> simp [htok]

/-- C2 (amended): for every invite that passes all guards, the invite-sent
marker is set and the ring timer armed, and exactly one incoming-call push is
dispatched when (and only when) the callee has a device token; a CallSession
is created and the invite (with the full normalized offer) relayed only when
the callee's connection is present — an offline callee leaves `activeCalls`
unchanged, gets no relay, and the caller is echoed `call-unavailable`. -/
theorem C2_invite_success_spec (db : Db) (s : ServerState) (sid : SocketId)
    (uid : UserId) (d : InviteData) (now : Nat) (p : Offer) (callee : UserRec)
    (hch : d.channelId ≠ "") (hcr : d.callerId ≠ "") (hce : d.calleeId ≠ "")
    (hterm : d.channelId ∉ s.endedOrRejectedChannels)
    (hmark : d.channelId ∉ s.callInviteSentForChannel)
    (hid : jsTrim d.callerId = uid)
    (hself : jsTrim d.calleeId ≠ uid)
    (hoffer : normalizeOffer d.offer = some p)
    (hdb : mget db (jsTrim d.calleeId) = some callee)
    (hact : callee.isActive = true)
    (hbusy : ¬ isBusy s.activeCalls uid (jsTrim d.calleeId)) :
    d.channelId ∈ (inviteStep db s sid uid d now).1.callInviteSentForChannel ∧
    mget (inviteStep db s sid uid d now).1.callRingTimeouts d.channelId =
      some { deadline := now + RING_TIMEOUT_MS,
             calleeFcmToken := callee.fcmToken, capCallerId := uid,
             capCalleeId := jsTrim d.calleeId,
             capCallerName := jsOr d.callerName "",
             capCallType := d.callType.getD "audio" } ∧
    pushIncomingCount (inviteStep db s sid uid d now).2 d.channelId =
      (if truthy callee.fcmToken then 1 else 0) ∧
    (∀ csid, mget s.activeUsers (jsTrim d.calleeId) = some csid →
       mget (inviteStep db s sid uid d now).1.activeCalls d.channelId =
         some { callerId := uid, calleeId := jsTrim d.calleeId,
                callerName := jsOr d.callerName "",
                callType := d.callType.getD "audio", inviteSentAt := now,
                offer := p, acceptedAt := none } ∧
       Ev.callInviteRelay csid d.channelId uid (jsTrim d.calleeId) p ∈
         (inviteStep db s sid uid d now).2 ∧
       relayCount (inviteStep db s sid uid d now).2 d.channelId = 1) ∧
    (mget s.activeUsers (jsTrim d.calleeId) = none →
       (inviteStep db s sid uid d now).1.activeCalls = s.activeCalls ∧
       relayCount (inviteStep db s sid uid d now).2 d.channelId = 0 ∧
       Ev.callUnavailable sid d.channelId (jsTrim d.calleeId) ∈
         (inviteStep db s sid uid d now).2) :=
  inviteStep_success_spec db s sid uid d now p callee hch hcr hce hterm
    hmark hid hself hoffer hdb hact hbusy

/-- C2 witness: the amended statement at the concrete online scenario — the
marker and ring timer are set, the push to `tokB` is dispatched, the session
is stored and the invite relayed to `sb`. -/
theorem C2_witness :
    "ch" ∈ (inviteStep dbAB (runFrom dbAB initialState
      [Action.connect "a" "sa", Action.connect "b" "sb"]).1
      "sa" "a" inviteAB 100).1.callInviteSentForChannel ∧
    pushIncomingCount (inviteStep dbAB (runFrom dbAB initialState
      [Action.connect "a" "sa", Action.connect "b" "sb"]).1
      "sa" "a" inviteAB 100).2 "ch" = 1 ∧
    mget (inviteStep dbAB (runFrom dbAB initialState
      [Action.connect "a" "sa", Action.connect "b" "sb"]).1
      "sa" "a" inviteAB 100).1.activeCalls "ch" = some callAB ∧
    Ev.callInviteRelay "sb" "ch" "a" "b" { otype := "offer", osdp := "sdp1" } ∈
      (inviteStep dbAB (runFrom dbAB initialState
        [Action.connect "a" "sa", Action.connect "b" "sb"]).1
        "sa" "a" inviteAB 100).2 := by
  have h := C2_invite_success_spec dbAB (runFrom dbAB initialState
      [Action.connect "a" "sa", Action.connect "b" "sb"]).1
    "sa" "a" inviteAB 100 { otype := "offer", osdp := "sdp1" }
    { isActive := true, fcmToken := some "tokB" }
    (by decide) (by decide) (by decide) (by decide) (by decide) (by decide)
    (by decide) (by decide) (by decide) (by decide) (by decide)
  obtain ⟨hm, ht, hp, honline, hoffline⟩ := h
  obtain ⟨hs, hr, hcnt⟩ := honline "sb" (by decide)
  refine ⟨hm, ?_, ?_, hr⟩
  · exact hp.trans (by decide)
  · exact hs.trans (by decide)

/-! ### C1 -/

/-- The concrete trace "invite then reject", leaving channel `ch` terminal. -/
def actsRejected : List Action :=
  actsInvite ++ [Action.reject "sb" "b" { channelId := "ch", callerId := "a" } 200]

/-- C1 counterexample: on a channel already in the ended-or-rejected set, a
subsequent `accept` is answered with `call-error` "Call not found" — not
with the `call-ended` echo the claim promises for every action on a terminal
channel. -/
theorem C1_counterexample :
    "ch" ∈ (runFrom dbAB initialState
      actsRejected).1.endedOrRejectedChannels ∧
    acceptStep (runFrom dbAB initialState actsRejected).1 "sb" "b"
      { channelId := "ch", callerId := "a", answer := some "ans" } 300 =
      ((runFrom dbAB initialState actsRejected).1,
       [Ev.callError "sb" "Call not found"]) := by
  decide

/-- C1 (amended): once a channel is in the ended-or-rejected set, no invite,
accept or notification referencing it succeeds: a well-formed invite is
answered with a `call-ended` echo and changes nothing; a well-formed accept
is answered with `call-error` "Call not found" (the terminal channel has no
session any more) and changes nothing; and no step of any kind ever produces
an invite relay, an incoming-call push, or a missed-call push for it. -/
theorem C1_terminal_channel (db : Db) (s : ServerState) (ch : ChannelId)
    (hreach : Reachable db s) (hch : ch ≠ "")
    (hterm : ch ∈ s.endedOrRejectedChannels) :
    (∀ sid uid d now, d.channelId = ch → d.callerId ≠ "" → d.calleeId ≠ "" →
      inviteStep db s sid uid d now = (s, [Ev.callEnded sid ch])) ∧
    (∀ sid uid d now, d.channelId = ch → d.callerId ≠ "" → truthy d.answer →
      acceptStep s sid uid d now = (s, [Ev.callError sid "Call not found"])) ∧
    (∀ a : Action, relayCount (step db s a).2 ch = 0 ∧
      pushIncomingCount (step db s a).2 ch = 0 ∧
      pushMissedCount (step db s a).2 ch = 0) := by
  have hInv := reachable_invMain hreach
  have hdead := invMain_terminal_dead hInv hterm
  refine ⟨?_, ?_, ?_⟩
  · intro sid uid d now hde hcr hce
    subst hde
    have hc1 : ¬(d.channelId = "" ∨ d.callerId = "" ∨ d.calleeId = "") := by
      simp [hch, hcr, hce]
    unfold inviteStep
    rw [if_neg hc1, if_pos hterm]
  · intro sid uid d now hde hcr hans
    subst hde
    have hc1 : ¬(d.channelId = "" ∨ d.callerId = "" ∨
        ¬ truthy d.answer = true) := by
      simp [hch, hcr, hans]
    unfold acceptStep
    rw [if_neg hc1, hdead.1]
  · intro a
    obtain ⟨h1, h2⟩ := step_no_emit db s a ch (Or.inr hterm)
    exact ⟨h1, h2, step_no_missedpush db s a ch hdead.2⟩

/-- C1 witness: after the concrete reject of `ch`, a re-invite is echoed
`call-ended`, an accept is refused with "Call not found", and a further
invite step emits no relay and no push for `ch`. -/
theorem C1_witness :
    inviteStep dbAB (runFrom dbAB initialState actsRejected).1 "sa" "a"
      inviteAB 400 =
      ((runFrom dbAB initialState actsRejected).1,
       [Ev.callEnded "sa" "ch"]) ∧
    acceptStep (runFrom dbAB initialState actsRejected).1 "sb" "b"
      { channelId := "ch", callerId := "a", answer := some "ans" } 400 =
      ((runFrom dbAB initialState actsRejected).1,
       [Ev.callError "sb" "Call not found"]) ∧
    relayCount (step dbAB (runFrom dbAB initialState actsRejected).1
      (Action.invite "sa" "a" inviteAB 400)).2 "ch" = 0 ∧
    pushIncomingCount (step dbAB (runFrom dbAB initialState actsRejected).1
      (Action.invite "sa" "a" inviteAB 400)).2 "ch" = 0 ∧
    pushMissedCount (step dbAB (runFrom dbAB initialState actsRejected).1
      (Action.invite "sa" "a" inviteAB 400)).2 "ch" = 0 := by
  have h := C1_terminal_channel dbAB
    (runFrom dbAB initialState actsRejected).1 "ch"
    ⟨actsRejected, rfl⟩ (by decide) (by decide)
  refine ⟨?_, ?_, ?_, ?_, ?_⟩
  · exact h.1 "sa" "a" inviteAB 400 rfl (by decide) (by decide)
  · exact h.2.1 "sb" "b"
      { channelId := "ch", callerId := "a", answer := some "ans" } 400 rfl
      (by decide) (by decide)
  · exact (h.2.2 (Action.invite "sa" "a" inviteAB 400)).1
  · exact (h.2.2 (Action.invite "sa" "a" inviteAB 400)).2.1
  · exact (h.2.2 (Action.invite "sa" "a" inviteAB 400)).2.2

/-! ### C3 -/

/-- C3: over any run of the engine from its initial state, at most one
`call-invite` relay and at most one incoming-call push are ever produced per
channel identifier; and a well-formed duplicate invite for a channel whose
invite-sent marker is present (and which is not terminal) is silently
dropped: no state change and no event at all. -/
theorem C3_invite_dedup :
    (∀ (db : Db) (acts : List Action) (ch : ChannelId),
      relayCount (runFrom db initialState acts).2 ch ≤ 1 ∧
      pushIncomingCount (runFrom db initialState acts).2 ch ≤ 1) ∧
    (∀ (db : Db) (s : ServerState) (sid : SocketId) (uid : UserId)
       (d : InviteData) (now : Nat),
      d.channelId ≠ "" → d.callerId ≠ "" → d.calleeId ≠ "" →
      d.channelId ∈ s.callInviteSentForChannel →
      d.channelId ∉ s.endedOrRejectedChannels →
      inviteStep db s sid uid d now = (s, [])) := by
  constructor
  · intro db acts ch
    exact ⟨(runFrom_relay_bound db ch acts initialState).2.1,
      (runFrom_relay_bound db ch acts initialState).2.2⟩
  · intro db s sid uid d now hch hcr hce hmark hterm
    have hc1 : ¬(d.channelId = "" ∨ d.callerId = "" ∨ d.calleeId = "") := by
      simp [hch, hcr, hce]
    unfold inviteStep
    rw [if_neg hc1, if_neg hterm, if_pos hmark]

/-- C3 witness: a trace that invites twice on channel `ch` still has counts
at most one, and the duplicate invite against the post-invite state is the
exact no-op `(s, [])`. -/
theorem C3_witness :
    (relayCount (runFrom dbAB initialState
      (actsInvite ++ [Action.invite "sa" "a" inviteAB 150])).2 "ch" ≤ 1 ∧
     pushIncomingCount (runFrom dbAB initialState
      (actsInvite ++ [Action.invite "sa" "a" inviteAB 150])).2 "ch" ≤ 1) ∧
    inviteStep dbAB (runFrom dbAB initialState actsInvite).1 "sa" "a"
      inviteAB 150 = ((runFrom dbAB initialState actsInvite).1, []) := by
  refine ⟨C3_invite_dedup.1 dbAB
    (actsInvite ++ [Action.invite "sa" "a" inviteAB 150]) "ch", ?_⟩
  exact C3_invite_dedup.2 dbAB (runFrom dbAB initialState actsInvite).1
    "sa" "a" inviteAB 150 (by decide) (by decide) (by decide) (by decide)
    (by decide)

/-! ### C4 -/

/-- C4: in every reachable state, a user identity appears as caller or callee
of at most one in-flight CallSession (two sessions sharing an identity are
the same channel); and an invite that reaches the busy scan (all earlier
guards pass) while the caller or callee appears in some in-flight session is
answered `call-busy` with no state change. -/
theorem C4_busy_invariant :
    (∀ (db : Db) (s : ServerState), Reachable db s →
      ∀ (ch1 ch2 : ChannelId) (c1 c2 : CallInfo) (u : UserId),
        mget s.activeCalls ch1 = some c1 →
        mget s.activeCalls ch2 = some c2 →
        (u = c1.callerId ∨ u = c1.calleeId) →
        (u = c2.callerId ∨ u = c2.calleeId) → ch1 = ch2) ∧
    (∀ (db : Db) (s : ServerState) (sid : SocketId) (uid : UserId)
       (d : InviteData) (now : Nat) (p : Offer) (callee : UserRec),
      d.channelId ≠ "" → d.callerId ≠ "" → d.calleeId ≠ "" →
      d.channelId ∉ s.endedOrRejectedChannels →
      d.channelId ∉ s.callInviteSentForChannel →
      jsTrim d.callerId = uid → jsTrim d.calleeId ≠ uid →
      normalizeOffer d.offer = some p →
      mget db (jsTrim d.calleeId) = some callee → callee.isActive = true →
      isBusy s.activeCalls uid (jsTrim d.calleeId) →
      inviteStep db s sid uid d now =
        (s, [Ev.callBusy sid d.channelId (jsTrim d.calleeId)])) := by
  constructor
  · intro db s hreach ch1 ch2 c1 c2 u h1 h2 hu1 hu2
    by_contra hne
    have hb := reachable_invBusy hreach ch1 c1 ch2 c2 h1 h2 hne
    rcases hu1 with rfl | rfl <;> rcases hu2 with h | h
    · exact hb.1 h
    · exact hb.2.1 h
    · exact hb.2.2.1 h
    · exact hb.2.2.2 h
  · intro db s sid uid d now p callee hch hcr hce hterm hmark hid hself
      hoffer hdb hact hbusy
    have hc1 : ¬(d.channelId = "" ∨ d.callerId = "" ∨ d.calleeId = "") := by
      simp [hch, hcr, hce]
    have hc4 : ¬(jsTrim d.callerId ≠ uid) := by simp [hid]
    have hc5 : ¬(callee.isActive = false) := by simp [hact]
    unfold inviteStep
    rw [if_neg hc1, if_neg hterm, if_neg hmark, if_neg hc4, if_neg hself,
      hoffer]
    try dsimp only
    rw [hdb]
    try dsimp only
    rw [if_neg hc5, if_pos hbusy]

/-- C4 witness: with the session of `actsInvite` in flight, identity `a`
appears only on channel `ch`, and an invite from `a` to `b` on a fresh
channel `ch2` is refused `call-busy` with no state change. -/
theorem C4_witness :
    ("ch" : ChannelId) = "ch" ∧
    inviteStep dbAB (runFrom dbAB initialState actsInvite).1 "sa" "a"
      { channelId := "ch2", callType := some "audio", callerId := "a",
        callerName := some "Alice", calleeId := "b",
        offer := some { rtype := some "offer", rsdp := some "sdp2" } } 300 =
      ((runFrom dbAB initialState actsInvite).1,
       [Ev.callBusy "sa" "ch2" "b"]) := by
  constructor
  · exact C4_busy_invariant.1 dbAB (runFrom dbAB initialState actsInvite).1
      ⟨actsInvite, rfl⟩ "ch" "ch" callAB callAB "a" (by decide) (by decide)
      (Or.inl rfl) (Or.inl rfl)
  · exact C4_busy_invariant.2 dbAB (runFrom dbAB initialState actsInvite).1
      "sa" "a"
      { channelId := "ch2", callType := some "audio", callerId := "a",
        callerName := some "Alice", calleeId := "b",
        offer := some { rtype := some "offer", rsdp := some "sdp2" } } 300
      { otype := "offer", osdp := "sdp2" }
      { isActive := true, fcmToken := some "tokB" }
      (by decide) (by decide) (by decide) (by decide) (by decide) (by decide)
      (by decide) (by decide) (by decide) (by decide) (by decide)

/-! ### C5 -/

/-- C5 counterexample: with callee `b` lacking a device token, the invite at
t = 100 ms arms the ring timer (deadline 180100 ms); an accept arrives at
t = 200 ms — well before the 3 minutes — but names an offline payload
`callerId`, so it fails and does not cancel the timer; at the deadline the
timer fires and a `missed` record is written after all, and no missed-call
push is dispatched. This refutes both "an accept arriving before the 3
minutes cancels the timer and no missed record is ever written" and "a
missed-call push is sent to the callee". -/
theorem C5_counterexample :
    missedRecCount (runFrom dbNoTok initialState
      (actsInvite ++ [Action.accept "sb" "b"
        { channelId := "ch", callerId := "zz", answer := some "ans" } 200,
        Action.timerFire "ch" 180100])).1.callHistory "ch" = 1 ∧
    pushMissedCount (runFrom dbNoTok initialState
      (actsInvite ++ [Action.accept "sb" "b"
        { channelId := "ch", callerId := "zz", answer := some "ans" } 200,
        Action.timerFire "ch" 180100])).2 "ch" = 0 ∧
    mget (runFrom dbNoTok initialState actsInvite).1.callRingTimeouts "ch" =
      some { deadline := 180100, calleeFcmToken := none, capCallerId := "a",
             capCalleeId := "b", capCallerName := "Alice",
             capCallType := "audio" } := by
  decide

/-- C5 (amended): (1) every invite that passes all guards arms a ring timer
whose deadline is exactly 3 minutes (180000 ms) after the invite; (2) when
the timer for a channel fires (its entry still present), the channel becomes
terminal with no session and no timer left, exactly one `missed` history
record with zero duration is appended, `call-ended` is emitted to each party
whose connection is present, and a missed-call push is dispatched iff a
device token was recorded at invite time; (3) a *successful* accept relays
`call-accepted` and cancels the timer, and any well-formed reject cancels
it; (4) once the timer entry is gone and the channel is marked or terminal,
no run ever appends another `missed` record for it; (5) over any whole run
at most one `missed` record is ever written per channel. -/
theorem C5_ring_timer_spec :
    (∀ (db : Db) (s : ServerState) (sid : SocketId) (uid : UserId)
       (d : InviteData) (now : Nat) (p : Offer) (callee : UserRec),
      d.channelId ≠ "" → d.callerId ≠ "" → d.calleeId ≠ "" →
      d.channelId ∉ s.endedOrRejectedChannels →
      d.channelId ∉ s.callInviteSentForChannel →
      jsTrim d.callerId = uid → jsTrim d.calleeId ≠ uid →
      normalizeOffer d.offer = some p →
      mget db (jsTrim d.calleeId) = some callee → callee.isActive = true →
      ¬ isBusy s.activeCalls uid (jsTrim d.calleeId) →
      RING_TIMEOUT_MS = 3 * 60 * 1000 ∧
      mget (inviteStep db s sid uid d now).1.callRingTimeouts d.channelId =
        some { deadline := now + RING_TIMEOUT_MS,
               calleeFcmToken := callee.fcmToken, capCallerId := uid,
               capCalleeId := jsTrim d.calleeId,
               capCallerName := jsOr d.callerName "",
               capCallType := d.callType.getD "audio" }) ∧
    (∀ (s : ServerState) (ch : ChannelId) (now : Nat) (t : TimerInfo),
      mget s.callRingTimeouts ch = some t →
      ch ∈ (timerFireStep s ch now).1.endedOrRejectedChannels ∧
      mget (timerFireStep s ch now).1.activeCalls ch = none ∧
      mget (timerFireStep s ch now).1.callRingTimeouts ch = none ∧
      (timerFireStep s ch now).1.callHistory = s.callHistory ++
        [{ callerId := t.capCallerId, calleeId := t.capCalleeId,
           channelId := ch, callType := t.capCallType, status := "missed",
           startedAt := match mget s.activeCalls ch with
             | some c => c.inviteSentAt
             | none => now - RING_TIMEOUT_MS,
           endedAt := now, durationSeconds := 0 }] ∧
      (∀ csid, mget s.activeUsers
          (match mget s.activeCalls ch with
           | some c => c.callerId
           | none => t.capCallerId) = some csid →
        Ev.callEnded csid ch ∈ (timerFireStep s ch now).2) ∧
      (∀ esid, mget s.activeUsers
          (match mget s.activeCalls ch with
           | some c => c.calleeId
           | none => t.capCalleeId) = some esid →
        Ev.callEnded esid ch ∈ (timerFireStep s ch now).2) ∧
      pushMissedCount (timerFireStep s ch now).2 ch =
        (if truthy t.calleeFcmToken then 1 else 0)) ∧
    (∀ (s : ServerState) (sid : SocketId) (uid : UserId) (d : AcceptData)
       (now : Nat) (call : CallInfo) (callerSocketId : SocketId),
      d.channelId ≠ "" → d.callerId ≠ "" → truthy d.answer →
      mget s.activeCalls d.channelId = some call → call.calleeId = uid →
      mget s.activeUsers d.callerId = some callerSocketId →
      mget (acceptStep s sid uid d now).1.callRingTimeouts d.channelId =
        none ∧
      Ev.callAccepted callerSocketId d.channelId d.callerId
        (d.answer.getD "") ∈ (acceptStep s sid uid d now).2) ∧
    (∀ (s : ServerState) (sid : SocketId) (uid : UserId) (d : RejectData)
       (now : Nat), d.channelId ≠ "" → d.callerId ≠ "" →
      mget (rejectStep s sid uid d now).1.callRingTimeouts d.channelId =
        none) ∧
    (∀ (db : Db) (acts : List Action) (s : ServerState) (ch : ChannelId),
      mget s.callRingTimeouts ch = none →
      (ch ∈ s.callInviteSentForChannel ∨ ch ∈ s.endedOrRejectedChannels) →
      missedRecCount (runFrom db s acts).1.callHistory ch =
        missedRecCount s.callHistory ch) ∧
    (∀ (db : Db) (acts : List Action) (ch : ChannelId),
      missedRecCount (runFrom db initialState acts).1.callHistory ch ≤ 1) := by
  refine ⟨?_, ?_, ?_, ?_, ?_, ?_⟩
  · -- (1) timer armed with deadline now + 3 minutes
    intro db s sid uid d now p callee hch hcr hce hterm hmark hid hself
      hoffer hdb hact hbusy
    refine ⟨rfl, ?_⟩
    exact (inviteStep_success_spec db s sid uid d now p callee hch hcr hce
      hterm hmark hid hself hoffer hdb hact hbusy).2.1
  · -- (2) firing
    intro s ch now t htimer
    unfold timerFireStep
    rw [htimer]
    try dsimp only
    cases hcall : mget s.activeCalls ch with
    | some c =>
      refine ⟨self_mem_sadd _ _, mget_mdel_self _ _, mget_mdel_self _ _,
        rfl, ?_, ?_, ?_⟩
      · intro csid h
        rw [h]
        simp
      · intro esid h
        rw [h]
        cases mget s.activeUsers c.callerId <;> simp
      · cases mget s.activeUsers c.callerId <;>
          cases mget s.activeUsers c.calleeId <;>
          by_cases htok : truthy t.calleeFcmToken <;>
          simp [htok, pushMissedCount, List.filter_append, List.filter_cons,
            List.filter_nil]
    | none =>
      refine ⟨self_mem_sadd _ _, mget_mdel_self _ _, mget_mdel_self _ _,
        rfl, ?_, ?_, ?_⟩
      · intro csid h
        rw [h]
        simp
      · intro esid h
        rw [h]
        cases mget s.activeUsers t.capCallerId <;> simp
      · cases mget s.activeUsers t.capCallerId <;>
          cases mget s.activeUsers t.capCalleeId <;>
          by_cases htok : truthy t.calleeFcmToken <;>
          simp [htok, pushMissedCount, List.filter_append, List.filter_cons,
            List.filter_nil]
  · -- (3a) successful accept cancels the timer and relays the answer
    intro s sid uid d now call callerSocketId hch hcr hans hcall hcallee
      hsock
    have hc1 : ¬(d.channelId = "" ∨ d.callerId = "" ∨
        ¬ truthy d.answer = true) := by
      simp [hch, hcr, hans]
    have hc2 : ¬(call.calleeId ≠ uid) := by simp [hcallee]
    unfold acceptStep
    rw [if_neg hc1, hcall]
    try dsimp only
    rw [if_neg hc2, hsock]
    exact ⟨mget_mdel_self _ _, by simp⟩
  · -- (3b) reject always cancels the timer
    intro s sid uid d now hch hcr
    have hc1 : ¬(d.channelId = "" ∨ d.callerId = "") := by simp [hch, hcr]
    unfold rejectStep
    rw [if_neg hc1]
    try dsimp only
    repeat' split
    all_goals exact mget_mdel_self _ _
  · -- (4) no missed record after the timer is gone
    intro db acts s ch htim hmot
    exact runFrom_no_missed db ch acts s htim hmot
  · -- (5) at most one missed record per channel per run
    intro db acts ch
    exact runFrom_missed_le_one_init db acts ch

/-- C5 witness: on the concrete scenario — the invite at t = 100 arms the
timer for t = 180100; firing it marks `ch` terminal, appends the `missed`
record and pushes to `tokB`; a successful accept cancels the timer, a reject
cancels it too; after the reject no later fire ever adds a missed record;
and the double-event trace has at most one missed record. -/
theorem C5_witness :
    mget (inviteStep dbAB (runFrom dbAB initialState
      [Action.connect "a" "sa", Action.connect "b" "sb"]).1
      "sa" "a" inviteAB 100).1.callRingTimeouts "ch" =
      some { deadline := 180100, calleeFcmToken := some "tokB",
             capCallerId := "a", capCalleeId := "b",
             capCallerName := "Alice", capCallType := "audio" } ∧
    "ch" ∈ (timerFireStep (runFrom dbAB initialState actsInvite).1 "ch"
      180100).1.endedOrRejectedChannels ∧
    pushMissedCount (timerFireStep (runFrom dbAB initialState actsInvite).1
      "ch" 180100).2 "ch" = 1 ∧
    mget (acceptStep (runFrom dbAB initialState actsInvite).1 "sb" "b"
      { channelId := "ch", callerId := "a", answer := some "ans" }
      200).1.callRingTimeouts "ch" = none ∧
    mget (rejectStep (runFrom dbAB initialState actsInvite).1 "sb" "b"
      { channelId := "ch", callerId := "a" } 200).1.callRingTimeouts "ch" =
      none ∧
    missedRecCount (runFrom dbAB (runFrom dbAB initialState actsRejected).1
      [Action.timerFire "ch" 200000]).1.callHistory "ch" =
      missedRecCount (runFrom dbAB initialState
        actsRejected).1.callHistory "ch" ∧
    missedRecCount (runFrom dbAB initialState
      (actsInvite ++ [Action.timerFire "ch" 180100,
        Action.timerFire "ch" 280100])).1.callHistory "ch" ≤ 1 := by
  obtain ⟨hp1, hp2, hp3a, hp3b, hp4, hp5⟩ := C5_ring_timer_spec
  refine ⟨?_, ?_, ?_, ?_, ?_, ?_, ?_⟩
  · have h := hp1 dbAB (runFrom dbAB initialState
        [Action.connect "a" "sa", Action.connect "b" "sb"]).1
      "sa" "a" inviteAB 100 { otype := "offer", osdp := "sdp1" }
      { isActive := true, fcmToken := some "tokB" }
      (by decide) (by decide) (by decide) (by decide) (by decide)
      (by decide) (by decide) (by decide) (by decide) (by decide) (by decide)
    exact h.2.trans (by decide)
  · exact (hp2 (runFrom dbAB initialState actsInvite).1 "ch" 180100
      { deadline := 180100, calleeFcmToken := some "tokB",
        capCallerId := "a", capCalleeId := "b", capCallerName := "Alice",
        capCallType := "audio" } (by decide)).1
  · have h := (hp2 (runFrom dbAB initialState actsInvite).1 "ch" 180100
      { deadline := 180100, calleeFcmToken := some "tokB",
        capCallerId := "a", capCalleeId := "b", capCallerName := "Alice",
        capCallType := "audio" } (by decide)).2.2.2.2.2.2
    exact h.trans (by decide)
  · exact (hp3a (runFrom dbAB initialState actsInvite).1 "sb" "b"
      { channelId := "ch", callerId := "a", answer := some "ans" } 200
      callAB "sa" (by decide) (by decide) (by decide) (by decide)
      (by decide) (by decide)).1
  · exact hp3b (runFrom dbAB initialState actsInvite).1 "sb" "b"
      { channelId := "ch", callerId := "a" } 200 (by decide) (by decide)
  · exact hp4 dbAB [Action.timerFire "ch" 200000]
      (runFrom dbAB initialState actsRejected).1 "ch" (by decide)
      (Or.inr (by decide))
  · exact hp5 dbAB
      (actsInvite ++ [Action.timerFire "ch" 180100,
        Action.timerFire "ch" 280100]) "ch"

end FriendsChat
